import Mathlib

/-!
Verification development for the django-eveuniverse entity synchronization
engine (`eveuniverse/managers.py`, `eveuniverse/models.py`,
`eveuniverse/tasks.py`).

The engine is embedded shallowly:

* ESI payloads are JSON-like `EsiValue` trees.
* A kind's `EveUniverseMeta` (esi pk, field mappings, children, inline
  objects) becomes a `KindSchema`; the `EsiMapping` named tuple of
  `models.py` becomes the `EsiMapping` structure.
* The relational store becomes a `DB`: per (kind, id) entity records plus
  per (inline kind, parent id, functional key) inline records.  A record is
  an association list of column name to stored value; columns absent from
  the list stand for their model-level column default.  The store does not
  re-enforce NOT NULL constraints.
* The manager pipeline (`update_or_create_esi`, `get_or_create_esi`,
  `_defaults_from_esi_obj`, `_handle_list_endpoints`,
  `_update_or_create_inline_objects`, `_update_or_create_children`, and the
  `EveStargateManager` override) becomes a fuel-indexed interpreter in the
  `Except` monad; the fuel bounds the recursive remote materialization of
  foreign-key targets and children.
* The remote API is a pure function `String → Option Int → Option EsiValue`
  (kind, optional id); `none` stands for the transport's HTTPNotFound.

The solar-system routing fragment (`is_high_sec`, `is_w_space`,
`distance_to`, `route_to`, `jumps_to`, `_shortest_path_to`) is embedded
separately over an explicit map database; float coordinates and security
values become rationals and the square root of `distance_to` is an abstract
parameter, since only the shape of the computation matters for the claims.
-/

namespace EveUniverse

/-- JSON-like value returned by the ESI client. -/
inductive EsiValue where
  | null
  | num (n : Int)
  | str (s : String)
  | bool (b : Bool)
  | obj (fields : List (String × EsiValue))
  | arr (elems : List EsiValue)

mutual

/-- Structural equality test on JSON-like values. -/
def EsiValue.beq : EsiValue → EsiValue → Bool
  | .null, .null => true
  | .num a, .num b => a == b
  | .str a, .str b => a == b
  | .bool a, .bool b => a == b
  | .obj a, .obj b => EsiValue.beqFields a b
  | .arr a, .arr b => EsiValue.beqElems a b
  | _, _ => false

/-- Equality test on object field lists. -/
def EsiValue.beqFields : List (String × EsiValue) → List (String × EsiValue) → Bool
  | [], [] => true
  | (k, v) :: t, (k', v') :: t' =>
    k == k' && EsiValue.beq v v' && EsiValue.beqFields t t'
  | _, _ => false

/-- Equality test on array element lists. -/
def EsiValue.beqElems : List EsiValue → List EsiValue → Bool
  | [], [] => true
  | v :: t, v' :: t' => EsiValue.beq v v' && EsiValue.beqElems t t'
  | _, _ => false

end

mutual

def EsiValue.eq_of_beq : ∀ (a b : EsiValue), EsiValue.beq a b = true → a = b
  | .null, .null, _ => rfl
  | .num _, .num _, h => by
    simp only [EsiValue.beq, beq_iff_eq] at h
    rw [h]
  | .str _, .str _, h => by
    simp only [EsiValue.beq, beq_iff_eq] at h
    rw [h]
  | .bool _, .bool _, h => by
    simp only [EsiValue.beq, beq_iff_eq] at h
    rw [h]
  | .obj a, .obj b, h => by
    rw [EsiValue.eqFields_of_beq a b (by simpa [EsiValue.beq] using h)]
  | .arr a, .arr b, h => by
    rw [EsiValue.eqElems_of_beq a b (by simpa [EsiValue.beq] using h)]
  | .null, .num _, h | .null, .str _, h | .null, .bool _, h
  | .null, .obj _, h | .null, .arr _, h
  | .num _, .null, h | .num _, .str _, h | .num _, .bool _, h
  | .num _, .obj _, h | .num _, .arr _, h
  | .str _, .null, h | .str _, .num _, h | .str _, .bool _, h
  | .str _, .obj _, h | .str _, .arr _, h
  | .bool _, .null, h | .bool _, .num _, h | .bool _, .str _, h
  | .bool _, .obj _, h | .bool _, .arr _, h
  | .obj _, .null, h | .obj _, .num _, h | .obj _, .str _, h
  | .obj _, .bool _, h | .obj _, .arr _, h
  | .arr _, .null, h | .arr _, .num _, h | .arr _, .str _, h
  | .arr _, .bool _, h | .arr _, .obj _, h => by
    simp [EsiValue.beq] at h

def EsiValue.eqFields_of_beq :
    ∀ (a b : List (String × EsiValue)), EsiValue.beqFields a b = true → a = b
  | [], [], _ => rfl
  | (k, v) :: t, (k', v') :: t', h => by
    simp only [EsiValue.beqFields, Bool.and_eq_true, beq_iff_eq] at h
    obtain ⟨⟨hk, hv⟩, ht⟩ := h
    cases hk
    cases EsiValue.eq_of_beq v v' hv
    rw [EsiValue.eqFields_of_beq t t' ht]
  | [], (_, _) :: _, h => by simp [EsiValue.beqFields] at h
  | (_, _) :: _, [], h => by simp [EsiValue.beqFields] at h

def EsiValue.eqElems_of_beq :
    ∀ (a b : List EsiValue), EsiValue.beqElems a b = true → a = b
  | [], [], _ => rfl
  | v :: t, v' :: t', h => by
    simp only [EsiValue.beqElems, Bool.and_eq_true] at h
    obtain ⟨hv, ht⟩ := h
    cases EsiValue.eq_of_beq v v' hv
    rw [EsiValue.eqElems_of_beq t t' ht]
  | [], _ :: _, h => by simp [EsiValue.beqElems] at h
  | _ :: _, [], h => by simp [EsiValue.beqElems] at h

end

mutual

def EsiValue.beq_refl : ∀ (a : EsiValue), EsiValue.beq a a = true
  | .null => rfl
  | .num _ => by simp [EsiValue.beq]
  | .str _ => by simp [EsiValue.beq]
  | .bool _ => by simp [EsiValue.beq]
  | .obj a => by simpa [EsiValue.beq] using EsiValue.beqFields_refl a
  | .arr a => by simpa [EsiValue.beq] using EsiValue.beqElems_refl a

def EsiValue.beqFields_refl : ∀ (a : List (String × EsiValue)), EsiValue.beqFields a a = true
  | [] => rfl
  | (k, v) :: t => by
    simp [EsiValue.beqFields, EsiValue.beq_refl v, EsiValue.beqFields_refl t]

def EsiValue.beqElems_refl : ∀ (a : List EsiValue), EsiValue.beqElems a a = true
  | [] => rfl
  | v :: t => by
    simp [EsiValue.beqElems, EsiValue.beq_refl v, EsiValue.beqElems_refl t]

end

instance : DecidableEq EsiValue := fun a b =>
  if h : EsiValue.beq a b = true then .isTrue (EsiValue.eq_of_beq a b h)
  else .isFalse (fun he => h (he ▸ EsiValue.beq_refl a))

/-- Python truthiness of a JSON-like value, as used by `if eve_data_obj:`
and the inline/children presence guards. -/
def EsiValue.truthy : EsiValue → Bool
  | .null => false
  | .num n => n != 0
  | .str s => !s.isEmpty
  | .bool b => b
  | .obj fields => !fields.isEmpty
  | .arr elems => !elems.isEmpty

/-- A remote path of a field mapping: either a flat key or a two-level
nested key (`mapping.esi_name` being a string or a tuple). -/
inductive EsiPath where
  | flat (key : String)
  | nested (outer inner : String)
deriving DecidableEq, Repr

/-- The `EsiMapping` named tuple of `models.py` (minus `is_optional`, which
the runtime pipeline never reads).  `related` names the related entity kind
when `is_fk` is true. -/
structure EsiMapping where
  esi_name : EsiPath
  is_pk : Bool := false
  is_fk : Bool := false
  related : String := ""
  is_parent_fk : Bool := false
  is_charfield : Bool := false
  create_related : Bool := true
deriving DecidableEq, Repr

/-- Declarative metadata of one entity kind, the compiled form of its
`EveUniverseMeta` plus `esi_mapping()`.  `mapping` is ordered like
`_meta.get_fields()`.  `is_stargate` selects the `EveStargateManager`
specialization of `update_or_create_esi`. -/
structure KindSchema where
  esi_pk : String
  mapping : List (String × EsiMapping)
  is_list_only : Bool := false
  inline_objects : List (String × String) := []
  children : List (String × String) := []
  is_stargate : Bool := false
deriving DecidableEq, Repr

/-- Metadata of one inline-object kind (a model with a functional composite
primary key instead of a remote id). -/
structure InlineSchema where
  mapping : List (String × EsiMapping)
deriving DecidableEq, Repr

/-- The static universe: registered entity kinds, registered inline kinds,
and the remote API.  `remote kind (some id)` is a single-object endpoint
call, `remote kind none` the argument-less call used for list-only kinds;
`none` as result is the transport's not-found. -/
structure World where
  kinds : List (String × KindSchema)
  inlineKinds : List (String × InlineSchema)
  remote : String → Option Int → Option EsiValue

/-- A stored record: column name to stored value.  Foreign-key columns hold
the referenced id as `EsiValue.num`, or `EsiValue.null`. -/
abbrev Record := List (String × EsiValue)

/-- The relational store.  Entity records are keyed by (kind name, id);
inline records by (inline kind name, parent id, functional key value). -/
structure DB where
  entities : String → Int → Option Record
  inlines : String → Int → EsiValue → Option Record

/-- The store with no records. -/
def DB.empty : DB := ⟨fun _ _ => none, fun _ _ _ => none⟩

/-- Write an entity record at (kind, id). -/
def DB.setEntity (db : DB) (kind : String) (id : Int) (r : Record) : DB :=
  { db with entities := fun k i => if k = kind ∧ i = id then some r else db.entities k i }

/-- Write an inline record at (inline kind, parent id, key). -/
def DB.setInline (db : DB) (kind : String) (parent : Int) (key : EsiValue) (r : Record) : DB :=
  { db with inlines := fun k p v =>
      if k = kind ∧ p = parent ∧ v = key then some r else db.inlines k p v }

/-- Set one column of a record, appending it when absent. -/
def setField (r : Record) (f : String) (v : EsiValue) : Record :=
  match r with
  | [] => [(f, v)]
  | (g, w) :: t => if g = f then (g, v) :: t else (g, w) :: setField t f v

/-- Apply a defaults dict to a record, column by column (Django's
`update_or_create` update path sets every key of `defaults`). -/
def mergeFields (r : Record) (defaults : List (String × EsiValue)) : Record :=
  defaults.foldl (fun acc p => setField acc p.1 p.2) r

/-- Raw dictionary lookup of a remote path in a payload: flat key, or
two-level lookup where the outer key must be present and hold an object
containing the inner key. -/
def lookupPath : EsiPath → EsiValue → Option EsiValue
  | .flat key, .obj fields => fields.lookup key
  | .nested outer inner, .obj fields =>
    match fields.lookup outer with
    | some (.obj innerFields) => innerFields.lookup inner
    | _ => none
  | _, _ => none

/-- Python-level value of a remote path: an absent key and an explicit JSON
null both become Python `None`. -/
def lookupEsi (p : EsiPath) (data : EsiValue) : Option EsiValue :=
  match lookupPath p data with
  | some .null => none
  | v => v

/-- Failure modes of the pipeline. `fuel` marks exhaustion of the recursion
bound (a diverging materialization chain); `httpNotFound` is the
`HTTPNotFound(FakeResponse(404), message=...)` raised by the list-endpoint
scan; `transportNotFound` the client's own not-found. -/
inductive EngineError where
  | fuel
  | unknownKind (kind : String)
  | transportNotFound (kind : String) (id : Int)
  | httpNotFound (status : Nat) (message : String)
  | valueErr (message : String)
  | unboundLocal (kind : String)
deriving DecidableEq, Repr

/-- The message of the list-scan miss:
`f"{self.model.__name__} object with id {id} not found"`. -/
def notFoundMessage (kind : String) (id : Int) : String :=
  kind ++ " object with id " ++ toString id ++ " not found"

/-- A deferred child-load job handed to the task queue:
(model name, id, include_children, wait_for_children). -/
abbrev Job := String × Int × Bool × Bool

/-- Outcome of one manager call: the new store, the returned record, the
`created` flag, and the deferred jobs emitted along the way. -/
structure EngineResult where
  db : DB
  obj : Record
  created : Bool
  jobs : List Job

/-- The scan of `_handle_list_endpoints`: first row whose `esi_pk` key
equals the requested id (`if esi_pk in row and row[esi_pk] == id`). -/
def scanRows (esi_pk : String) (id : Int) : List EsiValue → Option EsiValue
  | [] => none
  | row :: rest =>
    match row with
    | .obj fields =>
      if fields.lookup esi_pk = some (.num id) then some row
      else scanRows esi_pk id rest
    | _ => scanRows esi_pk id rest

/-- `_handle_list_endpoints`: pass non-list-only data through, else scan the
returned collection for the requested id and raise `HTTPNotFound` on a
miss. -/
def handle_list_endpoints (kind : String) (sch : KindSchema) (id : Int)
    (esi_data : EsiValue) : Except EngineError EsiValue :=
  if !sch.is_list_only then .ok esi_data
  else
    match esi_data with
    | .arr rows =>
      match scanRows sch.esi_pk id rows with
      | some row => .ok row
      | none => .error (.httpNotFound 404 (notFoundMessage kind id))
    | _ => .error (.valueErr "list endpoint did not return a list")

/-- `_defaults_from_esi_obj`, parameterized by the recursive
`update_or_create_esi` entry point (`go related_kind id db`, always invoked
with `include_children=False, wait_for_children=True`).  Walks the mapping
in field order; pk fields are skipped; a field whose Python-level value is
`None` contributes nothing; a foreign key is resolved to a local record or,
on a miss with `create_related` and a registered related kind, fetched
recursively; otherwise it resolves to null. -/
def defaults_from_esi_obj (w : World)
    (go : String → Int → DB → Except EngineError EngineResult)
    (data : EsiValue) :
    List (String × EsiMapping) → DB →
    Except EngineError (List (String × EsiValue) × DB × List Job)
  | [], db => .ok ([], db, [])
  | (fname, m) :: rest, db =>
    if m.is_pk then defaults_from_esi_obj w go data rest db
    else
      match lookupEsi m.esi_name data with
      | none => defaults_from_esi_obj w go data rest db
      | some v =>
        if m.is_fk then
          match v with
          | .num r =>
            match db.entities m.related r with
            | some _ =>
              (defaults_from_esi_obj w go data rest db).map
                (fun out => ((fname, EsiValue.num r) :: out.1, out.2))
            | none =>
              if m.create_related && (w.kinds.lookup m.related).isSome then
                match go m.related r db with
                | .error e => .error e
                | .ok res =>
                  (defaults_from_esi_obj w go data rest res.db).map
                    (fun out => ((fname, EsiValue.num r) :: out.1, out.2.1,
                      res.jobs ++ out.2.2))
              else
                (defaults_from_esi_obj w go data rest db).map
                  (fun out => ((fname, EsiValue.null) :: out.1, out.2))
          | _ =>
            -- Django raises when a non-integer value is used as a pk lookup
            .error (.valueErr ("invalid pk value for fk field " ++ fname))
        else
          -- literal translation of the source's guard; inside the
          -- `esi_value is not None` branch the coercion test is always false
          let value := if m.is_charfield && (some v).isNone then EsiValue.str "" else v
          (defaults_from_esi_obj w go data rest db).map
            (fun out => ((fname, value) :: out.1, out.2))

/-- Django's `update_or_create(id=id, defaults=defaults)` against the
store: update the defaults' columns of an existing record, or create a
fresh record carrying the pk column and the defaults. -/
def storeUpsert (db : DB) (kind : String) (id : Int)
    (defaults : List (String × EsiValue)) : DB × Record × Bool :=
  match db.entities kind id with
  | some r =>
    let r' := mergeFields r defaults
    (db.setEntity kind id r', r', false)
  | none =>
    let r := ("id", EsiValue.num id) :: defaults
    (db.setEntity kind id r, r, true)

/-- `get_or_create` style hit-or-delegate used by the inline-object loop:
a local hit returns immediately, a miss delegates to the supplied
`update_or_create_esi` (with default `include_children=False,
wait_for_children=True`). -/
def getOrCreateWith (go : String → Int → Bool → Bool → DB → Except EngineError EngineResult)
    (kind : String) (id : Int) (db : DB) : Except EngineError EngineResult :=
  match db.entities kind id with
  | some r => .ok ⟨db, r, false, []⟩
  | none => go kind id false true db

/-- The functional-pk pair of an inline kind: the parent-reference pk field
and the second pk field, each the last such assignment of the source's
field loop. -/
def findInlinePks (mapping : List (String × EsiMapping)) :
    Option (String × String × EsiMapping) :=
  match (mapping.filter (fun p => p.2.is_pk && p.2.is_parent_fk)).getLast?,
        (mapping.filter (fun p => p.2.is_pk && !p.2.is_parent_fk)).getLast? with
  | some pf, some op => some (pf.1, op.1, op.2)
  | _, _ => none

/-- Resolution of an inline row's second primary-key value: a foreign key
is looked up locally and on a miss get-or-created remotely when the related
kind is registered (`hasattr(..., "update_or_create_esi")`), else left
null; a plain value passes through. -/
def resolve_inline_pk (w : World)
    (go : String → Int → Bool → Bool → DB → Except EngineError EngineResult)
    (other : EsiMapping) (rawKey : EsiValue) (db : DB) :
    Except EngineError (EsiValue × DB × List Job) :=
  if other.is_fk then
    match rawKey with
    | .num r =>
      match db.entities other.related r with
      | some _ => .ok (.num r, db, [])
      | none =>
        if (w.kinds.lookup other.related).isSome then
          match getOrCreateWith go other.related r db with
          | .error e => .error e
          | .ok res => .ok (.num r, res.db, res.jobs)
        else .ok (.null, db, [])
    | _ => .error (.valueErr "invalid inline pk value")
  else .ok (rawKey, db, [])

/-- Django's `update_or_create` against the inline table keyed by
(parent reference, functional key value). -/
def storeInlineUpsert (db : DB) (ikind : String) (parentId : Int)
    (keyVal : EsiValue) (defaults : List (String × EsiValue)) : DB :=
  match db.inlines ikind parentId keyVal with
  | some r => db.setInline ikind parentId keyVal (mergeFields r defaults)
  | none => db.setInline ikind parentId keyVal defaults

/-- One inline kind's row loop: resolve the second pk, compute the row's
defaults, and upsert the inline record under (parent id, key value). -/
def inline_rows (w : World)
    (go : String → Int → Bool → Bool → DB → Except EngineError EngineResult)
    (ikind : String) (parentId : Int) (pkKey : String) (other : EsiMapping)
    (imapping : List (String × EsiMapping)) :
    List EsiValue → DB → Except EngineError (DB × List Job)
  | [], db => .ok (db, [])
  | row :: rest, db =>
    match row with
    | .obj _ =>
      match lookupPath (.flat pkKey) row with
      | none => .error (.valueErr ("missing inline pk key " ++ pkKey))
      | some rawKey =>
        match resolve_inline_pk w go other rawKey db with
        | .error e => .error e
        | .ok (keyVal, db1, jobs1) =>
          match defaults_from_esi_obj w (fun k i db' => go k i false true db') row
              imapping db1 with
          | .error e => .error e
          | .ok (defaults, db2, jobs2) =>
            (inline_rows w go ikind parentId pkKey other imapping rest
                (storeInlineUpsert db2 ikind parentId keyVal defaults)).map
              (fun out => (out.1, jobs1 ++ jobs2 ++ out.2))
    | _ => .error (.valueErr "inline row is not an object")

/-- `_update_or_create_inline_objects`: for each declared inline field that
is present and truthy in the parent payload, materialize every row. -/
def update_or_create_inline_objects (w : World)
    (go : String → Int → Bool → Bool → DB → Except EngineError EngineResult)
    (parentData : EsiValue) (parentId : Int) :
    List (String × String) → DB → Except EngineError (DB × List Job)
  | [], db => .ok (db, [])
  | (ifield, ikind) :: rest, db =>
    match lookupEsi (.flat ifield) parentData with
    | none => update_or_create_inline_objects w go parentData parentId rest db
    | some v =>
      if !v.truthy then update_or_create_inline_objects w go parentData parentId rest db
      else
        match w.inlineKinds.lookup ikind with
        | none => .error (.unknownKind ikind)
        | some isch =>
          match findInlinePks isch.mapping with
          | none => .error (.valueErr ("inline kind without functional pk: " ++ ikind))
          | some (_, _, other) =>
            match other.esi_name with
            | .nested _ _ =>
              -- the source indexes the row dict with `esi_name` directly, so a
              -- tuple path could never match a string key
              .error (.valueErr ("inline pk mapping is nested: " ++ ikind))
            | .flat esiKey =>
              match v with
              | .arr rows =>
                match inline_rows w go ikind parentId esiKey other isch.mapping rows db with
                | .error e => .error e
                | .ok (db', jobs) =>
                  (update_or_create_inline_objects w go parentData parentId rest db').map
                    (fun out => (out.1, jobs ++ out.2))
              | _ => .error (.valueErr "inline field is not a list")

/-- The id loop of `_update_or_create_children` for one child kind: either
a blocking recursive `update_or_create_esi` per id, or one deferred job per
id. -/
def child_ids (go : String → Int → Bool → Bool → DB → Except EngineError EngineResult)
    (childKind : String) (inc wt : Bool) :
    List EsiValue → DB → Except EngineError (DB × List Job)
  | [], db => .ok (db, [])
  | v :: rest, db =>
    match v with
    | .num i =>
      if wt then
        match go childKind i inc wt db with
        | .error e => .error e
        | .ok res =>
          (child_ids go childKind inc wt rest res.db).map
            (fun out => (out.1, res.jobs ++ out.2))
      else
        (child_ids go childKind inc wt rest db).map
          (fun out => (out.1, (childKind, i, inc, wt) :: out.2))
    | _ => .error (.valueErr "child id is not a number")

/-- `_update_or_create_children`: for each declared child field present and
truthy in the parent payload, materialize (or defer) every listed id. -/
def update_or_create_children
    (go : String → Int → Bool → Bool → DB → Except EngineError EngineResult)
    (parentData : EsiValue) (inc wt : Bool) :
    List (String × String) → DB → Except EngineError (DB × List Job)
  | [], db => .ok (db, [])
  | (key, childKind) :: rest, db =>
    match lookupEsi (.flat key) parentData with
    | none => update_or_create_children go parentData inc wt rest db
    | some v =>
      if !v.truthy then update_or_create_children go parentData inc wt rest db
      else
        match v with
        | .arr ids =>
          match child_ids go childKind inc wt ids db with
          | .error e => .error e
          | .ok (db', jobs) =>
            (update_or_create_children go parentData inc wt rest db').map
              (fun out => (out.1, jobs ++ out.2))
        | _ => .error (.valueErr "children field is not a list")

/-- The `EveStargateManager` post-step: when the gate just written holds a
non-null destination-gate reference to an existing record, point that
record's destination-gate field back here, and when our own solar system is
non-null, point its destination-solar-system field to it too, then persist
that side. -/
def stargate_fixup (db : DB) (kind : String) (id : Int) (r : Record) : DB :=
  match r.lookup "destination_eve_stargate" with
  | some (.num b) =>
    match db.entities kind b with
    | some br =>
      let br1 := setField br "destination_eve_stargate" (.num id)
      let br2 :=
        match r.lookup "eve_solar_system" with
        | some (.num s) => setField br1 "destination_eve_solar_system" (.num s)
        | _ => br1
      db.setEntity kind b br2
    | none => db
  | _ => db

/-- The part of `update_or_create_esi` after the raw record has been fetched
and the list scan resolved: defaults, upsert, inline objects, children, and
the stargate specialization's fixup, all on the given `eve_data_obj`. -/
def materialize_from_data (w : World)
    (go : String → Int → Bool → Bool → DB → Except EngineError EngineResult)
    (kind : String) (sch : KindSchema) (id : Int)
    (include_children wait_for_children : Bool)
    (eve_data_obj : EsiValue) (db : DB) : Except EngineError EngineResult :=
  if eve_data_obj.truthy then
    match defaults_from_esi_obj w (fun k i db' => go k i false true db')
        eve_data_obj sch.mapping db with
    | .error e => .error e
    | .ok (defaults, db1, jobs1) =>
      match update_or_create_inline_objects w go eve_data_obj id
          sch.inline_objects (storeUpsert db1 kind id defaults).1 with
      | .error e => .error e
      | .ok (db3, jobs2) =>
        match (if eve_data_obj.truthy && include_children then
                update_or_create_children go eve_data_obj include_children
                  wait_for_children sch.children db3
              else .ok (db3, [])) with
        | .error e => .error e
        | .ok (db4, jobs3) =>
          .ok ⟨(if sch.is_stargate then
                  stargate_fixup db4 kind id (storeUpsert db1 kind id defaults).2.1
                else db4),
            (storeUpsert db1 kind id defaults).2.1,
            (storeUpsert db1 kind id defaults).2.2,
            jobs1 ++ jobs2 ++ jobs3⟩
  else
    -- the source would fall through to `return obj, created` with both
    -- names unbound, an UnboundLocalError
    .error (.unboundLocal kind)

/-- One unfolding of `update_or_create_esi`, parameterized by the function
used for every nested manager call: fetch, list handling, then
materialization. -/
def engineStep (w : World)
    (go : String → Int → Bool → Bool → DB → Except EngineError EngineResult)
    (kind : String) (id : Int) (include_children wait_for_children : Bool)
    (db : DB) : Except EngineError EngineResult :=
  match w.kinds.lookup kind with
  | none => .error (.unknownKind kind)
  | some sch =>
    match w.remote kind (if id != 0 && !sch.is_list_only then some id else none) with
    | none => .error (.transportNotFound kind id)
    | some esi_data =>
      match handle_list_endpoints kind sch id esi_data with
      | .error e => .error e
      | .ok eve_data_obj =>
        materialize_from_data w go kind sch id include_children wait_for_children
          eve_data_obj db

/-- `EveUniverseEntityModelManager.update_or_create_esi` (with the
`EveStargateManager` specialization selected by the kind's schema), indexed
by the recursion fuel that bounds transitive materialization. -/
def update_or_create_esi (w : World) :
    Nat → String → Int → Bool → Bool → DB → Except EngineError EngineResult
  | 0 => fun _ _ _ _ _ => .error .fuel
  | fuel + 1 => engineStep w (update_or_create_esi w fuel)

/-- `EveUniverseEntityModelManager.get_or_create_esi`: a local hit returns
the record unchanged with `created=False`; a miss delegates to
`update_or_create_esi`. -/
def get_or_create_esi (w : World) (fuel : Nat) (kind : String) (id : Int)
    (include_children wait_for_children : Bool) (db : DB) :
    Except EngineError EngineResult :=
  match db.entities kind id with
  | some r => .ok ⟨db, r, false, []⟩
  | none => update_or_create_esi w fuel kind id include_children wait_for_children db

/-- Modelled from the spec: the deferred worker task for one queued job —
`load_eve_entity(model_name, id, include_children, wait_for_children)`
resolves the model class and calls the same `update_or_create_esi` entry
point with the job's parameters.  (The shipped `tasks.load_eve_object` has
exactly this body under another name; the name the managers module imports
is absent from `tasks.py` in this snapshot, so the task is modelled from
the spec's description of the worker.) -/
def load_eve_entity (w : World) (fuel : Nat) (job : Job) (db : DB) :
    Except EngineError EngineResult :=
  update_or_create_esi w fuel job.1 job.2.1 job.2.2.1 job.2.2.2 db

/-! ## The solar-system routing fragment of `models.py`

`EveSolarSystem.is_high_sec`, `is_w_space`, `distance_to`, `route_to`,
`jumps_to` and `_shortest_path_to`, over an explicit map database.  Float
coordinates and security values are modelled as rationals; the
`math.sqrt` of `distance_to` is an abstract parameter; the read-through
route cache (an external collaborator) is omitted, so `_shortest_path_to`
is the pure computation it memoizes; `networkx.shortest_path` (external) is
modelled as an unweighted breadth-first search returning `[]` where the
source catches `NetworkXNoPath`/`NodeNotFound`. -/

/-- The columns of an `EveSolarSystem` row read by the routing fragment. -/
structure EveSolarSystem where
  id : Int
  security_status : ℚ
  position_x : ℚ
  position_y : ℚ
  position_z : ℚ

/-- `security_status > 0.5`. -/
def EveSolarSystem.is_high_sec (s : EveSolarSystem) : Bool :=
  decide (s.security_status > 1 / 2)

/-- `31000000 <= id < 32000000`. -/
def EveSolarSystem.is_w_space (s : EveSolarSystem) : Bool :=
  decide (31000000 ≤ s.id ∧ s.id < 32000000)

/-- The columns of an `EveStargate` row read by the routing fragment. -/
structure StargateRow where
  id : Int
  eve_solar_system_id : Int
  destination_eve_solar_system_id : Option Int

/-- The tables consulted by `_shortest_path_to`. -/
structure MapDB where
  systems : List EveSolarSystem
  stargates : List StargateRow

/-- Security status of the system row with the given id, when present
(the queryset join on the solar-system foreign keys). -/
def securityOf (db : MapDB) (i : Int) : Option ℚ :=
  (db.systems.find? (fun s => s.id == i)).map (fun s => s.security_status)

/-- The `jumps()` queryset: every stargate with a non-null destination
system, as a (system id, destination system id) pair. -/
def jumps (db : MapDB) : List (Int × Int) :=
  db.stargates.filterMap (fun g =>
    g.destination_eve_solar_system_id.map (fun d => (g.eve_solar_system_id, d)))

/-- The per-row condition of the `jumps_excluding_high_sec()` queryset:
non-null destination and both endpoint systems' security status strictly
below 0.5. -/
def gateEdgeExcludingHighSec (db : MapDB) (g : StargateRow) : Option (Int × Int) :=
  match g.destination_eve_solar_system_id with
  | none => none
  | some d =>
    match securityOf db g.eve_solar_system_id, securityOf db d with
    | some s1, some s2 =>
      if s1 < 1 / 2 ∧ s2 < 1 / 2 then some (g.eve_solar_system_id, d) else none
    | _, _ => none

/-- The `jumps_excluding_high_sec()` queryset. -/
def jumps_excluding_high_sec (db : MapDB) : List (Int × Int) :=
  db.stargates.filterMap (gateEdgeExcludingHighSec db)

/-- Neighbors of a node in the undirected graph built from the edge list. -/
def neighbors (edges : List (Int × Int)) (n : Int) : List Int :=
  edges.foldr (fun e acc =>
    if e.1 = n then e.2 :: acc else if e.2 = n then e.1 :: acc else acc) []

/-- Whether a node occurs in the edge list (absence raises `NodeNotFound`
in the source, caught into an empty path). -/
def nodeIn (edges : List (Int × Int)) (n : Int) : Bool :=
  edges.any (fun e => e.1 == n || e.2 == n)

/-- One breadth-first level expansion: extend every frontier path by every
unvisited neighbor.  Returns the new visited set and the new frontier of
reversed paths. -/
def bfsLevel (edges : List (Int × Int)) (visited : List Int)
    (frontier : List (List Int)) : List Int × List (List Int) :=
  frontier.foldl (fun acc path =>
    match path with
    | [] => acc
    | n :: _ =>
      (neighbors edges n).foldl (fun acc2 m =>
        if acc2.1.contains m then acc2
        else (m :: acc2.1, (m :: path) :: acc2.2)) acc) (visited, [])

/-- Breadth-first search for a shortest path (the model of the external
`networkx.shortest_path` on an unweighted graph): expand levels until the
destination appears, returning the path in order, or `[]` when the
frontier dies out. -/
def bfsSearch (edges : List (Int × Int)) (dst : Int) :
    Nat → List Int → List (List Int) → List Int
  | 0, _, _ => []
  | fuel + 1, visited, frontier =>
    match frontier.find? (fun p => p.head? == some dst) with
    | some p => p.reverse
    | none =>
      let next := bfsLevel edges visited frontier
      if next.2.isEmpty then [] else bfsSearch edges dst fuel next.1 next.2

/-- Shortest path between two nodes of the undirected gate graph, or `[]`
when either node is absent or no path exists. -/
def shortestPath (edges : List (Int × Int)) (src dst : Int) : List Int :=
  if !nodeIn edges src || !nodeIn edges dst then []
  else bfsSearch edges dst (2 * edges.length + 1) [src] [[src]]

/-- `EveSolarSystem._shortest_path_to` (modulo the omitted cache): empty
for wormhole-space endpoints, else a breadth-first shortest path over the
chosen edge set. -/
def shortest_path_to (db : MapDB) (origin destination : EveSolarSystem)
    (exclude_high_sec : Bool) : List Int :=
  if origin.is_w_space || destination.is_w_space then []
  else
    shortestPath
      (if exclude_high_sec then jumps_excluding_high_sec db else jumps db)
      origin.id destination.id

/-- `EveSolarSystem.route_to`, with the result as the list of system ids
(the source maps the ids back to records). -/
def route_to (db : MapDB) (origin destination : EveSolarSystem)
    (exclude_high_sec : Bool) : Option (List Int) :=
  let path_ids := shortest_path_to db origin destination exclude_high_sec
  if !path_ids.isEmpty then some path_ids else none

/-- `EveSolarSystem.jumps_to`. -/
def jumps_to (db : MapDB) (origin destination : EveSolarSystem)
    (exclude_high_sec : Bool) : Option Nat :=
  let path_ids := shortest_path_to db origin destination exclude_high_sec
  if !path_ids.isEmpty then some (path_ids.length - 1) else none

/-- `EveSolarSystem.distance_to`, parameterized by the square-root function
(`math.sqrt` is an external numeric primitive). -/
def distance_to (sqrt : ℚ → ℚ) (origin destination : EveSolarSystem) : Option ℚ :=
  if origin.is_w_space || destination.is_w_space then none
  else
    some (sqrt ((destination.position_x - origin.position_x) ^ 2 +
      (destination.position_y - origin.position_y) ^ 2 +
      (destination.position_z - origin.position_z) ^ 2))

/-- The row condition of the `_handle_list_endpoints` scan:
`esi_pk in row and row[esi_pk] == id`. -/
def rowMatches (esi_pk : String) (id : Int) (row : EsiValue) : Bool :=
  match row with
  | .obj fields => decide (fields.lookup esi_pk = some (.num id))
  | _ => false

/-- Fixture world for the list-only witness: the `EveAncestry` kind (its
list and object endpoints coincide) with a two-row collection. -/
def ancestryWorld : World where
  kinds := [("EveAncestry",
    { esi_pk := "id"
      is_list_only := true
      mapping := [("name", { esi_name := EsiPath.flat "name", is_charfield := true })] })]
  inlineKinds := []
  remote := fun k i =>
    if k = "EveAncestry" ∧ i = none then
      some (.arr [.obj [("id", .num 8), ("name", .str "Modern Miners")],
                  .obj [("id", .num 9), ("name", .str "Tube Child")]])
    else none

/-- No schema in the world resolves a create-on-miss foreign key — nor any
inline-object foreign key other than a parent reference (`is_pk` and
`is_parent_fk`, which the row loop never get-or-creates) — into the given
kind.  Under this condition the only manager calls that can write records
of that kind are calls on the kind itself. -/
def NoCreateRefs (w : World) (k : String) : Bool :=
  w.kinds.all (fun p => p.2.mapping.all
    (fun q => !(q.2.is_fk && q.2.create_related && q.2.related == k))) &&
  w.inlineKinds.all (fun p => p.2.mapping.all
    (fun q => !(q.2.is_fk && !(q.2.is_pk && q.2.is_parent_fk) && q.2.related == k)))

/-- No schema in the world declares the given kind among its children. -/
def NoChildRefs (w : World) (k : String) : Bool :=
  w.kinds.all (fun p => p.2.children.all (fun c => !(c.2 == k)))

/-- The inline kind is declared only by schemas of the given parent kind. -/
def DeclaredOnlyBy (w : World) (ikind k : String) : Bool :=
  w.kinds.all (fun p => p.1 == k || p.2.inline_objects.all (fun q => !(q.2 == ikind)))

/-- Frame relation used for the non-interference lemmas: between two store
states, all entity records of kind `k` coincide, all inline records of
kinds declared only by `k` coincide, and record existence (of every kind)
is preserved forward. -/
def FrameRel (w : World) (k : String) (db db' : DB) : Prop :=
  (∀ i, db'.entities k i = db.entities k i) ∧
  (∀ ik, DeclaredOnlyBy w ik k = true →
    ∀ pid key, db'.inlines ik pid key = db.inlines ik pid key) ∧
  (∀ kk i, (db.entities kk i).isSome = true → (db'.entities kk i).isSome = true)

/-- The real `EveStargate` schema of `models.py` (field order as on the
model), together with the solar-system, type, constellation, star and
region schemas it references, and remote data for one gate whose
destination system coincides with its own solar system while the
destination gate itself is unknown locally.  The solar-system record
carries none of its optional keys, so the only recursive materialization is
the gate's own solar system. -/
def stargateWorld : World where
  kinds :=
    [("EveStargate",
      { esi_pk := "stargate_id"
        is_stargate := true
        mapping :=
          [("id", { esi_name := EsiPath.flat "stargate_id", is_pk := true }),
           ("name", { esi_name := EsiPath.flat "name", is_charfield := true }),
           ("destination_eve_stargate",
             { esi_name := EsiPath.nested "destination" "stargate_id",
               is_fk := true, related := "EveStargate", create_related := false }),
           ("destination_eve_solar_system",
             { esi_name := EsiPath.nested "destination" "system_id",
               is_fk := true, related := "EveSolarSystem", create_related := false }),
           ("eve_solar_system",
             { esi_name := EsiPath.flat "system_id", is_fk := true,
               related := "EveSolarSystem" }),
           ("eve_type",
             { esi_name := EsiPath.flat "type_id", is_fk := true, related := "EveType" }),
           ("position_x", { esi_name := EsiPath.nested "position" "x" }),
           ("position_y", { esi_name := EsiPath.nested "position" "y" }),
           ("position_z", { esi_name := EsiPath.nested "position" "z" })] }),
     ("EveSolarSystem",
      { esi_pk := "system_id"
        mapping :=
          [("id", { esi_name := EsiPath.flat "system_id", is_pk := true }),
           ("name", { esi_name := EsiPath.flat "name", is_charfield := true }),
           ("eve_constellation",
             { esi_name := EsiPath.flat "constellation_id", is_fk := true,
               related := "EveConstellation" }),
           ("eve_star",
             { esi_name := EsiPath.flat "star_id", is_fk := true, related := "EveStar" }),
           ("position_x", { esi_name := EsiPath.nested "position" "x" }),
           ("position_y", { esi_name := EsiPath.nested "position" "y" }),
           ("position_z", { esi_name := EsiPath.nested "position" "z" }),
           ("security_status", { esi_name := EsiPath.flat "security_status" })] }),
     ("EveType",
      { esi_pk := "type_id"
        mapping := [("id", { esi_name := EsiPath.flat "type_id", is_pk := true }),
                    ("name", { esi_name := EsiPath.flat "name", is_charfield := true })] }),
     ("EveConstellation",
      { esi_pk := "constellation_id"
        mapping := [("id", { esi_name := EsiPath.flat "constellation_id", is_pk := true }),
                    ("name", { esi_name := EsiPath.flat "name", is_charfield := true })] }),
     ("EveStar",
      { esi_pk := "star_id"
        mapping := [("id", { esi_name := EsiPath.flat "star_id", is_pk := true }),
                    ("name", { esi_name := EsiPath.flat "name", is_charfield := true })] }),
     ("EveRegion",
      { esi_pk := "region_id"
        mapping := [("id", { esi_name := EsiPath.flat "region_id", is_pk := true }),
                    ("name", { esi_name := EsiPath.flat "name", is_charfield := true })] })]
  inlineKinds := []
  remote := fun k i =>
    if k = "EveStargate" ∧ i = some 50 then
      some (.obj [("stargate_id", .num 50), ("name", .str "Gate A"),
        ("destination", .obj [("stargate_id", .num 99), ("system_id", .num 30001)]),
        ("system_id", .num 30001)])
    else if k = "EveSolarSystem" ∧ i = some 30001 then
      some (.obj [("system_id", .num 30001), ("name", .str "Sys"),
        ("security_status", .num 1)])
    else none

/-- First run of the counterexample gate upsert. -/
def stargateRun1 : Except EngineError EngineResult :=
  update_or_create_esi stargateWorld 3 "EveStargate" 50 false true DB.empty

/-- The store after the first run. -/
def stargateDB1 : DB :=
  match stargateRun1 with
  | .ok res => res.db
  | .error _ => DB.empty

/-- Second run of the counterexample gate upsert, on the store left by the
first. -/
def stargateRun2 : Except EngineError EngineResult :=
  update_or_create_esi stargateWorld 3 "EveStargate" 50 false true stargateDB1

/-- The schema of the idempotence-witness kind: a category-like kind with
no foreign keys. -/
def categorySchema : KindSchema :=
  { esi_pk := "category_id"
    mapping := [("id", { esi_name := EsiPath.flat "category_id", is_pk := true }),
                ("name", { esi_name := EsiPath.flat "name", is_charfield := true }),
                ("published", { esi_name := EsiPath.flat "published" })] }

/-- The raw remote payload of the idempotence-witness category. -/
def categoryData : EsiValue :=
  .obj [("category_id", .num 6), ("name", .str "Ship"), ("published", .bool true)]

/-- Fixture world for the idempotence witness. -/
def categoryWorld : World where
  kinds := [("EveCategory", categorySchema)]
  inlineKinds := []
  remote := fun k i =>
    if k = "EveCategory" ∧ i = some 6 then some categoryData else none

/-- The category record produced by the first upsert of the idempotence
witness. -/
def categoryRec : Record :=
  [("id", .num 6), ("name", .str "Ship"), ("published", .bool true)]

/-- The defaults dict computed by either upsert of the idempotence
witness. -/
def categoryDS : List (String × EsiValue) :=
  [("name", .str "Ship"), ("published", .bool true)]

/-- Outcome of the first upsert of the idempotence witness. -/
def categoryRes1 : EngineResult :=
  ⟨DB.empty.setEntity "EveCategory" 6 categoryRec, categoryRec, true, []⟩

/-- Outcome of the second upsert of the idempotence witness. -/
def categoryRes2 : EngineResult :=
  ⟨(DB.empty.setEntity "EveCategory" 6 categoryRec).setEntity "EveCategory" 6
      (mergeFields categoryRec categoryDS),
    mergeFields categoryRec categoryDS, false, []⟩

/-- Fixture world for the update-overwrite counterexample: a region-like
kind with two textual fields. -/
def regionWorld : World where
  kinds := [("EveRegion",
    { esi_pk := "region_id"
      mapping := [("name", { esi_name := EsiPath.flat "name", is_charfield := true }),
                  ("description", { esi_name := EsiPath.flat "description", is_charfield := true })] })]
  inlineKinds := []
  remote := fun k i =>
    if k = "EveRegion" ∧ i = some 10000069 then
      some (.obj [("region_id", .num 10000069), ("name", .str "New Name")])
    else none

/-- An existing local region record with both textual fields populated. -/
def regionDB : DB :=
  DB.empty.setEntity "EveRegion" 10000069
    [("id", .num 10000069), ("name", .str "Old Name"), ("description", .str "old text")]

/-- The world family of the reciprocal-stargate claim: any two gates (ids
`a` and `b`, in systems `sa` and `sb`, with arbitrary names) whose remote
records name each other as destination, over the real `EveStargate`
schema. -/
def pairWorld (a b sa sb : Int) (na nb nsa nsb : String) : World where
  kinds := stargateWorld.kinds
  inlineKinds := []
  remote := fun k i =>
    if k = "EveStargate" ∧ i = some a then
      some (.obj [("stargate_id", .num a), ("name", .str na),
        ("destination", .obj [("stargate_id", .num b), ("system_id", .num sb)]),
        ("system_id", .num sa)])
    else if k = "EveStargate" ∧ i = some b then
      some (.obj [("stargate_id", .num b), ("name", .str nb),
        ("destination", .obj [("stargate_id", .num a), ("system_id", .num sa)]),
        ("system_id", .num sb)])
    else if k = "EveSolarSystem" ∧ i = some sa then
      some (.obj [("system_id", .num sa), ("name", .str nsa),
        ("security_status", .num 1)])
    else if k = "EveSolarSystem" ∧ i = some sb then
      some (.obj [("system_id", .num sb), ("name", .str nsb),
        ("security_status", .num 1)])
    else none

/-- One stored stargate field, through the record lookup. -/
def gateField (db : DB) (g : Int) (f : String) : Option (Option EsiValue) :=
  (db.entities "EveStargate" g).map (fun r => r.lookup f)

/-- The store after upserting two reciprocal gates in the given order. -/
def pairDBAfter (a b sa sb : Int) (na nb nsa nsb : String)
    (first second : Int) : Option DB :=
  match update_or_create_esi (pairWorld a b sa sb na nb nsa nsb) 3 "EveStargate"
      first false true DB.empty with
  | .ok res1 =>
    match update_or_create_esi (pairWorld a b sa sb na nb nsa nsb) 3 "EveStargate"
        second false true res1.db with
    | .ok res2 => some res2.db
    | .error _ => none
  | .error _ => none

/-- The functional key values an inline-object pass can write for a parent
payload: for each declared inline field holding a list, the raw value of
the functional-pk key of every row. -/
def payloadInlineKeys (w : World) :
    List (String × String) → EsiValue → List EsiValue
  | [], _ => []
  | (ifield, ikind) :: rest, parentData =>
    (match lookupEsi (.flat ifield) parentData with
     | some (.arr rows) =>
       match w.inlineKinds.lookup ikind with
       | some isch =>
         match findInlinePks isch.mapping with
         | some (_, _, other) =>
           match other.esi_name with
           | .flat esiKey => rows.filterMap (fun row => lookupPath (.flat esiKey) row)
           | .nested _ _ => []
         | none => []
       | none => []
     | _ => []) ++ payloadInlineKeys w rest parentData

/-- The inline schema of the inline-materialization witness: dogma
attributes keyed by (type reference, attribute reference). -/
def dogmaSchema : InlineSchema :=
  { mapping :=
      [("eve_type",
         { esi_name := EsiPath.flat "eve_type_id", is_pk := true, is_fk := true,
           related := "EveType", is_parent_fk := true }),
       ("eve_dogma_attribute",
         { esi_name := EsiPath.flat "attribute_id", is_pk := true, is_fk := true,
           related := "EveDogmaAttribute" }),
       ("value", { esi_name := EsiPath.flat "value" })] }

/-- The parent kind of the inline-materialization witness. -/
def typeSchema : KindSchema :=
  { esi_pk := "type_id"
    mapping := [("id", { esi_name := EsiPath.flat "type_id", is_pk := true }),
                ("name", { esi_name := EsiPath.flat "name", is_charfield := true })]
    inline_objects := [("dogma_attributes", "EveTypeDogmaAttribute")] }

/-- The referenced attribute kind of the inline-materialization witness. -/
def attrSchema : KindSchema :=
  { esi_pk := "attribute_id"
    mapping := [("id", { esi_name := EsiPath.flat "attribute_id", is_pk := true }),
                ("name", { esi_name := EsiPath.flat "name", is_charfield := true })] }

/-- The raw type payload of the inline-materialization witness, carrying
one dogma-attribute row. -/
def typeData : EsiValue :=
  .obj [("type_id", .num 603), ("name", .str "Merlin"),
        ("dogma_attributes",
          .arr [.obj [("attribute_id", .num 588), ("value", .num 5)]])]

/-- Fixture world for the inline-materialization witness. -/
def typeWorld : World where
  kinds := [("EveType", typeSchema), ("EveDogmaAttribute", attrSchema)]
  inlineKinds := [("EveTypeDogmaAttribute", dogmaSchema)]
  remote := fun k i =>
    if k = "EveType" ∧ i = some 603 then some typeData
    else if k = "EveDogmaAttribute" ∧ i = some 588 then
      some (.obj [("attribute_id", .num 588), ("name", .str "power")])
    else none

/-- A pre-existing inline row of the witness type whose functional key (an
older attribute) no longer appears in the refreshed payload. -/
def staleDB : DB :=
  DB.empty.setInline "EveTypeDogmaAttribute" 603 (.num 9) [("value", .num 1)]

/-- The store left by the witness inline pass: the stale row untouched, the
referenced attribute materialized, and the payload row upserted under its
composite key. -/
def typeOutDB : DB :=
  (staleDB.setEntity "EveDogmaAttribute" 588
      [("id", .num 588), ("name", .str "power")]).setInline
    "EveTypeDogmaAttribute" 603 (.num 588) [("value", .num 5)]

/-! ## Claim C2: get-or-create on a local hit -/

/-- C2: for an id whose record already exists locally, `get_or_create_esi`
returns that record with `created=false` and leaves the store — including
every previously materialized child record — untouched, even with
`include_children=true`.  The world `w` (remote API included) is arbitrary
and the conclusion does not depend on it: the hit path performs no remote
call. -/
theorem get_or_create_esi_hit (w : World) (fuel : Nat) (kind : String) (id : Int)
    (include_children wait_for_children : Bool) (db : DB) (r : Record)
    (h : db.entities kind id = some r) :
    get_or_create_esi w fuel kind id include_children wait_for_children db =
      .ok ⟨db, r, false, []⟩ := by
  unfold get_or_create_esi
  rw [h]

/-- Witness for C2, at fuel 0: even with no recursion budget at all (so any
remote access would fail), the hit path succeeds untouched, with
`include_children=true`. -/
theorem get_or_create_esi_hit_witness :
    get_or_create_esi ⟨[], [], fun _ _ => none⟩ 0 "EveCategory" 6 true true
      (DB.empty.setEntity "EveCategory" 6 [("id", EsiValue.num 6)]) =
      .ok ⟨DB.empty.setEntity "EveCategory" 6 [("id", EsiValue.num 6)],
        [("id", EsiValue.num 6)], false, []⟩ :=
  get_or_create_esi_hit _ 0 _ 6 true true _ _ rfl

/-! ## Claim C5: list-only endpoint scan -/

theorem scanRows_eq_find (esi_pk : String) (id : Int) (rows : List EsiValue) :
    scanRows esi_pk id rows = rows.find? (rowMatches esi_pk id) := by
  induction rows with
  | nil => rfl
  | cons row rest ih =>
    cases row with
    | obj fields =>
      by_cases h : fields.lookup esi_pk = some (.num id)
      · simp [scanRows, List.find?, rowMatches, h]
      · simp [scanRows, List.find?, rowMatches, h, ih]
    | null => simp [scanRows, List.find?, rowMatches, ih]
    | num n => simp [scanRows, List.find?, rowMatches, ih]
    | str s => simp [scanRows, List.find?, rowMatches, ih]
    | bool b => simp [scanRows, List.find?, rowMatches, ih]
    | arr es => simp [scanRows, List.find?, rowMatches, ih]

/-- C5: for a list-only kind, fetch-one scans the rows returned by the list
endpoint.  When the scan finds a row whose primary-key field equals the
requested id, exactly that row's fields feed the rest of the upsert
pipeline; when no row matches, the call fails with the 404 condition whose
message carries the kind name and the id. -/
theorem list_only_scan (w : World) (fuel : Nat) (kind : String) (sch : KindSchema)
    (id : Int) (rows : List EsiValue) (include_children wait_for_children : Bool)
    (db : DB)
    (hk : w.kinds.lookup kind = some sch)
    (hlist : sch.is_list_only = true)
    (hremote : w.remote kind none = some (.arr rows)) :
    (∀ row, rows.find? (rowMatches sch.esi_pk id) = some row →
      update_or_create_esi w (fuel + 1) kind id include_children wait_for_children db =
        materialize_from_data w (update_or_create_esi w fuel) kind sch id
          include_children wait_for_children row db) ∧
    (rows.find? (rowMatches sch.esi_pk id) = none →
      update_or_create_esi w (fuel + 1) kind id include_children wait_for_children db =
        .error (.httpNotFound 404 (notFoundMessage kind id))) := by
  have harg : (if id != 0 && !sch.is_list_only then some id else none) = none := by
    simp [hlist]
  constructor
  · intro row hrow
    simp [update_or_create_esi, engineStep, hk, harg, hremote,
      handle_list_endpoints, hlist, scanRows_eq_find, hrow]
  · intro hmiss
    simp [update_or_create_esi, engineStep, hk, harg, hremote,
      handle_list_endpoints, hlist, scanRows_eq_find, hmiss]

/-- Witness for C5: a two-row fixture of a list-only kind; id 1 is absent
from the list and the call raises the 404 with the kind name and id in the
message. -/
theorem list_only_scan_witness :
    update_or_create_esi ancestryWorld 1 "EveAncestry" 1 false true DB.empty =
      .error (.httpNotFound 404 (notFoundMessage "EveAncestry" 1)) := by
  exact (list_only_scan ancestryWorld 0 "EveAncestry" _ 1 _ false true DB.empty
    rfl rfl rfl).2 rfl

/-! ## Claim C9: wormhole exclusion in routing and distance -/

/-- C9: `distance_to`, `route_to` and `jumps_to` all return null whenever
either endpoint's id lies in [31000000, 32000000), regardless of the
systems' coordinates, the square-root function, the gate data, and the
high-sec filter flag. -/
theorem wormhole_exclusion (db : MapDB) (sqrt : ℚ → ℚ)
    (origin destination : EveSolarSystem) (exclude_high_sec : Bool)
    (h : (31000000 ≤ origin.id ∧ origin.id < 32000000) ∨
         (31000000 ≤ destination.id ∧ destination.id < 32000000)) :
    distance_to sqrt origin destination = none ∧
    route_to db origin destination exclude_high_sec = none ∧
    jumps_to db origin destination exclude_high_sec = none := by
  have hw : (origin.is_w_space || destination.is_w_space) = true := by
    rcases h with h | h
    · have : origin.is_w_space = true := by
        simp [EveSolarSystem.is_w_space]
        exact h
      simp [this]
    · have : destination.is_w_space = true := by
        simp [EveSolarSystem.is_w_space]
        exact h
      simp [this]
  refine ⟨?_, ?_, ?_⟩
  · simp [distance_to, hw]
  · simp [route_to, shortest_path_to, hw]
  · simp [jumps_to, shortest_path_to, hw]

/-- Witness for C9: Thera (a wormhole-space id) against a k-space system
with live coordinates and an existing gate edge between them. -/
theorem wormhole_exclusion_witness :
    distance_to (fun q => q) ⟨31000005, 0, 0, 0, 0⟩ ⟨30000142, 1, 1, 1, 1⟩ = none ∧
    route_to ⟨[⟨31000005, 0, 0, 0, 0⟩, ⟨30000142, 1, 1, 1, 1⟩], [⟨50000001, 31000005, some 30000142⟩]⟩
      ⟨31000005, 0, 0, 0, 0⟩ ⟨30000142, 1, 1, 1, 1⟩ false = none ∧
    jumps_to ⟨[⟨31000005, 0, 0, 0, 0⟩, ⟨30000142, 1, 1, 1, 1⟩], [⟨50000001, 31000005, some 30000142⟩]⟩
      ⟨31000005, 0, 0, 0, 0⟩ ⟨30000142, 1, 1, 1, 1⟩ false = none :=
  wormhole_exclusion _ (fun q => q) _ _ false (Or.inl (by constructor <;> decide))

/-! ## Claim C10: the high-sec exclusion filter is strict at 0.5 -/

theorem gateEdge_eq_some (db : MapDB) (e : Int × Int) (g : StargateRow) :
    gateEdgeExcludingHighSec db g = some e ↔
      g.eve_solar_system_id = e.1 ∧ g.destination_eve_solar_system_id = some e.2 ∧
      ∃ s1 s2 : ℚ, securityOf db e.1 = some s1 ∧ securityOf db e.2 = some s2 ∧
        s1 < 1 / 2 ∧ s2 < 1 / 2 := by
  obtain ⟨ea, eb⟩ := e
  dsimp only
  unfold gateEdgeExcludingHighSec
  split
  next hd =>
    constructor
    · intro h
      exact Option.noConfusion h
    · rintro ⟨_, h2, _⟩
      rw [hd] at h2
      exact Option.noConfusion h2
  next d hd =>
    split
    next s1 s2 h1 h2 =>
      by_cases hs : s1 < 1 / 2 ∧ s2 < 1 / 2
      · rw [if_pos hs]
        constructor
        · intro h
          injection h with h'
          injection h' with ha hb
          subst ha
          subst hb
          exact ⟨rfl, hd, s1, s2, h1, h2, hs⟩
        · rintro ⟨he1, he2, _⟩
          rw [hd] at he2
          injection he2 with he2'
          subst he2'
          subst he1
          rfl
      · rw [if_neg hs]
        constructor
        · intro h
          exact Option.noConfusion h
        · rintro ⟨he1, he2, t1, t2, ht1, ht2, hlt1, hlt2⟩
          rw [hd] at he2
          injection he2 with he2'
          subst he2'
          subst he1
          rw [h1] at ht1
          injection ht1 with ht1'
          rw [h2] at ht2
          injection ht2 with ht2'
          subst ht1'
          subst ht2'
          exact (hs ⟨hlt1, hlt2⟩).elim
    next hno =>
      constructor
      · intro h
        exact Option.noConfusion h
      · rintro ⟨he1, he2, t1, t2, ht1, ht2, _, _⟩
        rw [hd] at he2
        injection he2 with he2'
        subst he2'
        subst he1
        exact (hno t1 t2 ht1 ht2).elim

/-- C10: with `exclude_high_sec` the routing edge set contains exactly the
gate edges whose two endpoint systems both have security status strictly
below 0.5; any edge touching a system whose security status is exactly 0.5
is excluded, even though `is_high_sec` classifies such a system as not
high-security (`is_high_sec` holds only strictly above 0.5). -/
theorem highsec_edge_filter (db : MapDB) :
    (∀ e : Int × Int, e ∈ jumps_excluding_high_sec db ↔
      ∃ g ∈ db.stargates, g.eve_solar_system_id = e.1 ∧
        g.destination_eve_solar_system_id = some e.2 ∧
        ∃ s1 s2 : ℚ, securityOf db e.1 = some s1 ∧ securityOf db e.2 = some s2 ∧
          s1 < 1 / 2 ∧ s2 < 1 / 2) ∧
    (∀ g ∈ db.stargates, ∀ d : Int, g.destination_eve_solar_system_id = some d →
      (securityOf db g.eve_solar_system_id = some (1 / 2) ∨
        securityOf db d = some (1 / 2)) →
      (g.eve_solar_system_id, d) ∉ jumps_excluding_high_sec db) ∧
    (∀ s : EveSolarSystem, s.is_high_sec = true ↔ 1 / 2 < s.security_status) := by
  have hmem : ∀ e : Int × Int, e ∈ jumps_excluding_high_sec db ↔
      ∃ g ∈ db.stargates, g.eve_solar_system_id = e.1 ∧
        g.destination_eve_solar_system_id = some e.2 ∧
        ∃ s1 s2 : ℚ, securityOf db e.1 = some s1 ∧ securityOf db e.2 = some s2 ∧
          s1 < 1 / 2 ∧ s2 < 1 / 2 := by
    intro e
    unfold jumps_excluding_high_sec
    rw [List.mem_filterMap]
    constructor
    · rintro ⟨g, hg, hedge⟩
      exact ⟨g, hg, (gateEdge_eq_some db e g).1 hedge⟩
    · rintro ⟨g, hg, hprops⟩
      exact ⟨g, hg, (gateEdge_eq_some db e g).2 hprops⟩
  refine ⟨hmem, ?_, ?_⟩
  · rintro g hg d hd hhalf hmem'
    obtain ⟨g', _, he1, he2, s1, s2, hs1, hs2, hlt1, hlt2⟩ := (hmem (g.eve_solar_system_id, d)).1 hmem'
    rcases hhalf with hh | hh
    · rw [hs1] at hh
      cases hh
      exact absurd hlt1 (lt_irrefl _)
    · rw [hs2] at hh
      cases hh
      exact absurd hlt2 (lt_irrefl _)
  · intro s
    simp [EveSolarSystem.is_high_sec]

/-- Witness for C10: a gate between a system at exactly 0.5 security and a
0.0 system: the 0.5 system is not high-sec, yet the edge is excluded from
the filtered edge set. -/
theorem highsec_edge_filter_witness :
    EveSolarSystem.is_high_sec ⟨30000001, 1 / 2, 0, 0, 0⟩ = false ∧
    ((30000001 : Int), (30000002 : Int)) ∉ jumps_excluding_high_sec
      ⟨[⟨30000001, 1 / 2, 0, 0, 0⟩, ⟨30000002, 0, 0, 0, 0⟩],
        [⟨50000001, 30000001, some 30000002⟩]⟩ := by
  constructor
  · have h := (highsec_edge_filter
      ⟨[⟨30000001, 1 / 2, 0, 0, 0⟩, ⟨30000002, 0, 0, 0, 0⟩],
        [⟨50000001, 30000001, some 30000002⟩]⟩).2.2 ⟨30000001, 1 / 2, 0, 0, 0⟩
    by_contra hc
    simp only [Bool.not_eq_false] at hc
    exact absurd (h.1 hc) (by norm_num)
  · exact (highsec_edge_filter
      ⟨[⟨30000001, 1 / 2, 0, 0, 0⟩, ⟨30000002, 0, 0, 0, 0⟩],
        [⟨50000001, 30000001, some 30000002⟩]⟩).2.1
      ⟨50000001, 30000001, some 30000002⟩ (by simp) 30000002 rfl
      (Or.inl (by norm_num [securityOf, List.find?]))

/-! ## Characterization of `_defaults_from_esi_obj` -/

theorem except_map_ok {α β ε : Type _} (f : α → β) (e : Except ε α) (b : β)
    (h : e.map f = .ok b) : ∃ a, e = .ok a ∧ f a = b := by
  cases e with
  | error e => simp [Except.map] at h
  | ok a => exact ⟨a, rfl, by simpa [Except.map] using h⟩

/-- Exhaustive description of one field step of `_defaults_from_esi_obj`:
a pk field is skipped; a field whose Python-level value is None is skipped;
otherwise the field contributes one entry whose value is the raw value for
a plain field, and for a foreign key either the referenced id (local hit or
successful recursive create) or null (no `create_related`, or unregistered
related kind). -/
theorem defaults_cons_cases (w : World)
    (go : String → Int → DB → Except EngineError EngineResult)
    (data : EsiValue) (fname : String) (m : EsiMapping)
    (rest : List (String × EsiMapping)) (db : DB)
    (out : List (String × EsiValue) × DB × List Job)
    (hrun : defaults_from_esi_obj w go data ((fname, m) :: rest) db = .ok out) :
    (m.is_pk = true ∧ defaults_from_esi_obj w go data rest db = .ok out) ∨
    (m.is_pk = false ∧ lookupEsi m.esi_name data = none ∧
      defaults_from_esi_obj w go data rest db = .ok out) ∨
    (m.is_pk = false ∧ ∃ v, lookupEsi m.esi_name data = some v ∧
      ∃ value dbmid jpre ds' db' js',
        defaults_from_esi_obj w go data rest dbmid = .ok (ds', db', js') ∧
        out = ((fname, value) :: ds', db', jpre ++ js') ∧
        ((m.is_fk = false ∧ value = v ∧ dbmid = db ∧ jpre = []) ∨
         (m.is_fk = true ∧ ∃ rr : Int, v = .num rr ∧
           ((value = .num rr ∧ dbmid = db ∧ jpre = [] ∧
               ∃ r0, db.entities m.related rr = some r0) ∨
            (db.entities m.related rr = none ∧
              (m.create_related && (w.kinds.lookup m.related).isSome) = true ∧
              ∃ res, go m.related rr db = .ok res ∧
                value = .num rr ∧ dbmid = res.db ∧ jpre = res.jobs) ∨
            (db.entities m.related rr = none ∧
              (m.create_related && (w.kinds.lookup m.related).isSome) = false ∧
              value = .null ∧ dbmid = db ∧ jpre = []))))) := by
  by_cases hpk : m.is_pk = true
  · exact Or.inl ⟨hpk, by simpa only [defaults_from_esi_obj, hpk, if_true] using hrun⟩
  · have hpk' : m.is_pk = false := by simpa using hpk
    simp only [defaults_from_esi_obj, hpk', Bool.false_eq_true, if_false] at hrun
    split at hrun
    next hl =>
      exact Or.inr (Or.inl ⟨hpk', hl, hrun⟩)
    next v hl =>
      refine Or.inr (Or.inr ⟨hpk', v, hl, ?_⟩)
      split at hrun
      next hfk =>
        split at hrun
        next rr =>
          split at hrun
          next r0 hdb =>
            obtain ⟨⟨ds', db', js'⟩, hrest, hout⟩ := except_map_ok _ _ _ hrun
            exact ⟨.num rr, db, [], ds', db', js', hrest, by simpa using hout.symm,
              Or.inr ⟨by simpa using hfk, rr, rfl, Or.inl ⟨rfl, rfl, rfl, r0, hdb⟩⟩⟩
          next hdb =>
            split at hrun
            next hcr =>
              split at hrun
              next e hgo => cases hrun
              next res hgo =>
                obtain ⟨⟨ds', db', js'⟩, hrest, hout⟩ := except_map_ok _ _ _ hrun
                exact ⟨.num rr, res.db, res.jobs, ds', db', js', hrest,
                  by simpa using hout.symm,
                  Or.inr ⟨by simpa using hfk, rr, rfl,
                    Or.inr (Or.inl ⟨hdb, hcr, res, hgo, rfl, rfl, rfl⟩)⟩⟩
            next hcr =>
              obtain ⟨⟨ds', db', js'⟩, hrest, hout⟩ := except_map_ok _ _ _ hrun
              exact ⟨.null, db, [], ds', db', js', hrest, by simpa using hout.symm,
                Or.inr ⟨by simpa using hfk, rr, rfl,
                  Or.inr (Or.inr ⟨hdb, Bool.eq_false_iff.mpr hcr, rfl, rfl, rfl⟩)⟩⟩
        next hnum => cases hrun
      next hfk =>
        have hfk' : m.is_fk = false := by simpa using hfk
        obtain ⟨⟨ds', db', js'⟩, hrest, hout⟩ := except_map_ok _ _ _ hrun
        refine ⟨v, db, [], ds', db', js', hrest, ?_, Or.inl ⟨hfk', rfl, rfl, rfl⟩⟩
        rw [← hout]
        simp

theorem lookup_none_of_not_mem_keys {α : Type _} :
    ∀ (t : List (String × α)) (f : String), f ∉ t.map Prod.fst → t.lookup f = none
  | [], _, _ => rfl
  | (g, _) :: t, f, hf => by
    simp only [List.map, List.mem_cons, not_or] at hf
    have hg : (f == g) = false := beq_eq_false_iff_ne.mpr hf.1
    simp only [List.lookup, hg]
    exact lookup_none_of_not_mem_keys t f hf.2

theorem lookup_isSome_of_mem_keys {α : Type _} :
    ∀ (t : List (String × α)) (f : String), f ∈ t.map Prod.fst → ∃ v, t.lookup f = some v
  | [], _, hf => absurd hf (List.not_mem_nil _)
  | (g, w) :: t, f, hf => by
    by_cases hgf : g = f
    · exact ⟨w, by simp [List.lookup, hgf]⟩
    · have hg : (f == g) = false := beq_eq_false_iff_ne.mpr (fun hh => hgf hh.symm)
      have hf' : f ∈ t.map Prod.fst := by
        simp only [List.map, List.mem_cons] at hf
        rcases hf with hf | hf
        · exact absurd hf.symm hgf
        · exact hf
      obtain ⟨v, hv⟩ := lookup_isSome_of_mem_keys t f hf'
      exact ⟨v, by simp [List.lookup, hg, hv]⟩

theorem lookup_setField_self (f : String) (v : EsiValue) :
    ∀ (r : Record), (setField r f v).lookup f = some v
  | [] => by simp [setField, List.lookup]
  | (g, w) :: t => by
    by_cases h : g = f
    · simp [setField, h, List.lookup]
    · have hg : (f == g) = false := beq_eq_false_iff_ne.mpr (fun hh => h hh.symm)
      simp only [setField, if_neg h, List.lookup, hg]
      exact lookup_setField_self f v t

theorem lookup_setField_other (f : String) (v : EsiValue) (f' : String) (h : f' ≠ f) :
    ∀ (r : Record), (setField r f v).lookup f' = r.lookup f'
  | [] => by
    have hg : (f' == f) = false := beq_eq_false_iff_ne.mpr h
    simp [setField, List.lookup, hg]
  | (g, w) :: t => by
    by_cases hgf : g = f
    · subst hgf
      have hg : (f' == g) = false := beq_eq_false_iff_ne.mpr h
      simp [setField, List.lookup, hg]
    · simp only [setField, if_neg hgf, List.lookup]
      cases hgf' : f' == g
      · exact lookup_setField_other f v f' h t
      · rfl

theorem mergeFields_cons (r : Record) (g : String) (w : EsiValue)
    (t : List (String × EsiValue)) :
    mergeFields r ((g, w) :: t) = mergeFields (setField r g w) t := rfl

theorem lookup_mergeFields_none :
    ∀ (ds : List (String × EsiValue)) (r : Record) (f : String),
      ds.lookup f = none → (mergeFields r ds).lookup f = r.lookup f
  | [], _, _, _ => rfl
  | (g, w) :: t, r, f, h => by
    have hg : (f == g) = false := by
      cases hgf : f == g
      · rfl
      · simp [List.lookup, hgf] at h
    have ht : t.lookup f = none := by simpa [List.lookup, hg] using h
    rw [mergeFields_cons, lookup_mergeFields_none t (setField r g w) f ht]
    exact lookup_setField_other g w f (beq_eq_false_iff_ne.mp hg) r

theorem lookup_mergeFields_some :
    ∀ (ds : List (String × EsiValue)) (r : Record) (f : String) (v : EsiValue),
      ds.lookup f = some v → (ds.map Prod.fst).Nodup →
      (mergeFields r ds).lookup f = some v
  | [], _, _, _, h, _ => by simp [List.lookup] at h
  | (g, w) :: t, r, f, v, h, hnd => by
    rw [mergeFields_cons]
    by_cases hgf : g = f
    · subst hgf
      have hw : w = v := by simpa [List.lookup] using h
      subst hw
      have htn : t.lookup g = none := by
        apply lookup_none_of_not_mem_keys
        simp only [List.map] at hnd
        exact (List.nodup_cons.mp hnd).1
      rw [lookup_mergeFields_none t (setField r g w) g htn]
      exact lookup_setField_self g w r
    · have hg : (f == g) = false := beq_eq_false_iff_ne.mpr (fun hh => hgf hh.symm)
      have ht : t.lookup f = some v := by simpa [List.lookup, hg] using h
      exact lookup_mergeFields_some t (setField r g w) f v ht
        (by simp only [List.map] at hnd ⊢; exact (List.nodup_cons.mp hnd).2)

theorem defaults_keys_none (w : World)
    (go : String → Int → DB → Except EngineError EngineResult) (data : EsiValue) :
    ∀ (L : List (String × EsiMapping)) (db : DB)
      (out : List (String × EsiValue) × DB × List Job),
      defaults_from_esi_obj w go data L db = .ok out →
      ∀ f, f ∉ L.map Prod.fst → out.1.lookup f = none
  | [], db, out, hrun, f, _ => by
    simp only [defaults_from_esi_obj] at hrun
    cases hrun
    rfl
  | (g, mg) :: rest, db, out, hrun, f, hf => by
    simp only [List.map, List.mem_cons, not_or] at hf
    rcases defaults_cons_cases w go data g mg rest db out hrun with
      ⟨_, h⟩ | ⟨_, _, h⟩ | ⟨_, v, hv, value, dbmid, jpre, ds', db', js', hrest, hout, _⟩
    · exact defaults_keys_none w go data rest db out h f hf.2
    · exact defaults_keys_none w go data rest db out h f hf.2
    · have hds := defaults_keys_none w go data rest dbmid (ds', db', js') hrest f hf.2
      rw [hout]
      have hg : (f == g) = false := beq_eq_false_iff_ne.mpr hf.1
      simpa [List.lookup, hg] using hds

theorem defaults_keys_nodup (w : World)
    (go : String → Int → DB → Except EngineError EngineResult) (data : EsiValue) :
    ∀ (L : List (String × EsiMapping)) (db : DB)
      (out : List (String × EsiValue) × DB × List Job),
      defaults_from_esi_obj w go data L db = .ok out →
      (L.map Prod.fst).Nodup → (out.1.map Prod.fst).Nodup
  | [], db, out, hrun, _ => by
    simp only [defaults_from_esi_obj] at hrun
    cases hrun
    exact List.nodup_nil
  | (g, mg) :: rest, db, out, hrun, hnd => by
    have hnd' : (rest.map Prod.fst).Nodup := by
      simp only [List.map] at hnd
      exact (List.nodup_cons.mp hnd).2
    have hgk : g ∉ rest.map Prod.fst := by
      simp only [List.map] at hnd
      exact (List.nodup_cons.mp hnd).1
    rcases defaults_cons_cases w go data g mg rest db out hrun with
      ⟨_, h⟩ | ⟨_, _, h⟩ | ⟨_, v, hv, value, dbmid, jpre, ds', db', js', hrest, hout, _⟩
    · exact defaults_keys_nodup w go data rest db out h hnd'
    · exact defaults_keys_nodup w go data rest db out h hnd'
    · rw [hout]
      simp only [List.map]
      refine List.nodup_cons.mpr ⟨?_, ?_⟩
      · intro hg
        obtain ⟨vv, hvv⟩ := lookup_isSome_of_mem_keys ds' g hg
        rw [defaults_keys_none w go data rest dbmid (ds', db', js') hrest g hgk] at hvv
        cases hvv
      · exact defaults_keys_nodup w go data rest dbmid (ds', db', js') hrest hnd'

theorem defaults_lookup_null (w : World)
    (go : String → Int → DB → Except EngineError EngineResult) (data : EsiValue) :
    ∀ (L : List (String × EsiMapping)) (db : DB)
      (out : List (String × EsiValue) × DB × List Job),
      defaults_from_esi_obj w go data L db = .ok out →
      (L.map Prod.fst).Nodup →
      ∀ (fname : String) (m : EsiMapping), (fname, m) ∈ L →
        lookupEsi m.esi_name data = none →
        out.1.lookup fname = none
  | [], _, _, _, _, fname, m, hmem, _ => absurd hmem (List.not_mem_nil _)
  | (g, mg) :: rest, db, out, hrun, hnd, fname, m, hmem, hnull => by
    have hnd' : (rest.map Prod.fst).Nodup := by
      simp only [List.map] at hnd
      exact (List.nodup_cons.mp hnd).2
    have hgk : g ∉ rest.map Prod.fst := by
      simp only [List.map] at hnd
      exact (List.nodup_cons.mp hnd).1
    rcases List.mem_cons.mp hmem with hhead | htail
    · injection hhead with h1 h2
      subst h1
      subst h2
      rcases defaults_cons_cases w go data fname m rest db out hrun with
        ⟨_, h⟩ | ⟨_, _, h⟩ | ⟨_, v, hv, _⟩
      · exact defaults_keys_none w go data rest db out h fname hgk
      · exact defaults_keys_none w go data rest db out h fname hgk
      · rw [hnull] at hv
        cases hv
    · rcases defaults_cons_cases w go data g mg rest db out hrun with
        ⟨_, h⟩ | ⟨_, _, h⟩ | ⟨_, v, hv, value, dbmid, jpre, ds', db', js', hrest, hout, _⟩
      · exact defaults_lookup_null w go data rest db out h hnd' fname m htail hnull
      · exact defaults_lookup_null w go data rest db out h hnd' fname m htail hnull
      · have hf : fname ≠ g := by
          intro hh
          subst hh
          exact hgk (List.mem_map_of_mem Prod.fst htail)
        have hds := defaults_lookup_null w go data rest dbmid (ds', db', js') hrest hnd'
          fname m htail hnull
        rw [hout]
        have hg : (fname == g) = false := beq_eq_false_iff_ne.mpr hf
        simpa [List.lookup, hg] using hds

theorem defaults_lookup_some (w : World)
    (go : String → Int → DB → Except EngineError EngineResult) (data : EsiValue) :
    ∀ (L : List (String × EsiMapping)) (db : DB)
      (out : List (String × EsiValue) × DB × List Job),
      defaults_from_esi_obj w go data L db = .ok out →
      (L.map Prod.fst).Nodup →
      ∀ (fname : String) (m : EsiMapping) (v : EsiValue), (fname, m) ∈ L →
        m.is_pk = false → lookupEsi m.esi_name data = some v →
        (m.is_fk = false → out.1.lookup fname = some v) ∧
        (m.is_fk = true → ∃ rr : Int, v = .num rr ∧
          (out.1.lookup fname = some (.num rr) ∨ out.1.lookup fname = some .null))
  | [], _, _, _, _, fname, m, v, hmem, _, _ => absurd hmem (List.not_mem_nil _)
  | (g, mg) :: rest, db, out, hrun, hnd, fname, m, v, hmem, hpk, hv => by
    have hnd' : (rest.map Prod.fst).Nodup := by
      simp only [List.map] at hnd
      exact (List.nodup_cons.mp hnd).2
    have hgk : g ∉ rest.map Prod.fst := by
      simp only [List.map] at hnd
      exact (List.nodup_cons.mp hnd).1
    rcases List.mem_cons.mp hmem with hhead | htail
    · injection hhead with h1 h2
      subst h1
      subst h2
      rcases defaults_cons_cases w go data fname m rest db out hrun with
        ⟨hpk1, _⟩ | ⟨_, hl, _⟩ | ⟨_, v', hv', value, dbmid, jpre, ds', db', js', hrest, hout, hval⟩
      · rw [hpk] at hpk1
        cases hpk1
      · rw [hv] at hl
        cases hl
      · rw [hv] at hv'
        injection hv' with hv''
        subst hv''
        have hself : out.1.lookup fname = some value := by
          rw [hout]
          simp [List.lookup]
        constructor
        · intro hfk0
          rcases hval with ⟨_, hveq, _⟩ | ⟨hfk1, _⟩
          · rw [hself, hveq]
          · rw [hfk0] at hfk1
            cases hfk1
        · intro hfk1
          rcases hval with ⟨hfk0, _⟩ | ⟨_, rr, hvr, hcase⟩
          · rw [hfk1] at hfk0
            cases hfk0
          · refine ⟨rr, hvr, ?_⟩
            rcases hcase with ⟨hveq, _⟩ | ⟨_, _, res, _, hveq, _⟩ | ⟨_, _, hveq, _⟩
            · exact Or.inl (by rw [hself, hveq])
            · exact Or.inl (by rw [hself, hveq])
            · exact Or.inr (by rw [hself, hveq])
    · rcases defaults_cons_cases w go data g mg rest db out hrun with
        ⟨_, h⟩ | ⟨_, _, h⟩ | ⟨_, v', hv', value, dbmid, jpre, ds', db', js', hrest, hout, _⟩
      · exact defaults_lookup_some w go data rest db out h hnd' fname m v htail hpk hv
      · exact defaults_lookup_some w go data rest db out h hnd' fname m v htail hpk hv
      · have hf : fname ≠ g := by
          intro hh
          subst hh
          exact hgk (List.mem_map_of_mem Prod.fst htail)
        have hg : (fname == g) = false := beq_eq_false_iff_ne.mpr hf
        have hskip : out.1.lookup fname = ds'.lookup fname := by
          rw [hout]
          simp [List.lookup, hg]
        have hds := defaults_lookup_some w go data rest dbmid (ds', db', js') hrest hnd'
          fname m v htail hpk hv
        constructor
        · intro hfk0
          rw [hskip]
          exact hds.1 hfk0
        · intro hfk1
          obtain ⟨rr, hvr, hcase⟩ := hds.2 hfk1
          exact ⟨rr, hvr, by rw [hskip]; exact hcase⟩

/-! ## Claim C4: null textual fields in default resolution -/

/-- C4 (amended): during default resolution, a mapped textual field whose
looked-up remote value is Python None (key absent, or JSON null) produces
no default at all: the field is omitted from the computed defaults dict
rather than coerced to the empty string, because the coercion branch of the
source sits inside the `esi_value is not None` guard and can never fire.
The column therefore takes its model-level default on create and keeps its
previous value on update. -/
theorem charfield_null_default_omitted (w : World)
    (go : String → Int → DB → Except EngineError EngineResult) (data : EsiValue)
    (L : List (String × EsiMapping)) (db : DB)
    (out : List (String × EsiValue) × DB × List Job)
    (hrun : defaults_from_esi_obj w go data L db = .ok out)
    (hnd : (L.map Prod.fst).Nodup)
    (fname : String) (m : EsiMapping) (hmem : (fname, m) ∈ L)
    (_hchar : m.is_charfield = true)
    (hnull : lookupEsi m.esi_name data = none) :
    out.1.lookup fname = none :=
  defaults_lookup_null w go data L db out hrun hnd fname m hmem hnull

/-- Witness for C4 (amended): a two-field textual mapping where
`description` is explicit JSON null: the computed defaults hold only
`name`. -/
theorem charfield_null_default_omitted_witness :
    List.lookup "description" [("name", EsiValue.str "Modern")] = none :=
  charfield_null_default_omitted ⟨[], [], fun _ _ => none⟩ (fun _ _ _ => .error .fuel)
    (.obj [("name", .str "Modern"), ("description", .null)])
    [("name", { esi_name := EsiPath.flat "name", is_charfield := true }),
     ("description", { esi_name := EsiPath.flat "description", is_charfield := true })]
    DB.empty ([("name", EsiValue.str "Modern")], DB.empty, []) rfl (by decide)
    "description" { esi_name := EsiPath.flat "description", is_charfield := true }
    (by decide) rfl rfl

/-- Counterexample to C4 as stated: the textual field `description` is
resolved to null by the raw record, yet the computed defaults do not map it
to the empty string — they contain no entry for it at all. -/
theorem charfield_null_coercion_cex :
    defaults_from_esi_obj ⟨[], [], fun _ _ => none⟩ (fun _ _ _ => .error .fuel)
      (.obj [("name", .str "Modern"), ("description", .null)])
      [("name", { esi_name := EsiPath.flat "name", is_charfield := true }),
       ("description", { esi_name := EsiPath.flat "description", is_charfield := true })]
      DB.empty = .ok ([("name", .str "Modern")], DB.empty, []) ∧
    List.lookup "description" [("name", EsiValue.str "Modern")] ≠
      some (.str "") := ⟨rfl, by decide⟩

/-! ## Claim C3: overwrite semantics of a re-upsert -/

/-- C3 (amended): the upsert step of `update_or_create_esi` on an existing
record overwrites exactly the mapped non-pk fields that the new raw record
resolves to a non-null value — a plain field takes the raw value, a foreign
key takes the referenced id or null — while a field whose looked-up value
is null is omitted from the defaults and retains its previous stored value:
the update is a merge with respect to null-resolved fields, not a full
overwrite. -/
theorem update_overwrite_semantics (w : World)
    (go : String → Int → DB → Except EngineError EngineResult) (data : EsiValue)
    (L : List (String × EsiMapping)) (db : DB)
    (out : List (String × EsiValue) × DB × List Job)
    (hrun : defaults_from_esi_obj w go data L db = .ok out)
    (hnd : (L.map Prod.fst).Nodup)
    (dbx : DB) (kind : String) (id : Int) (r : Record)
    (hex : dbx.entities kind id = some r)
    (fname : String) (m : EsiMapping) (hmem : (fname, m) ∈ L) (hpk : m.is_pk = false) :
    (lookupEsi m.esi_name data = none →
      (storeUpsert dbx kind id out.1).2.1.lookup fname = r.lookup fname) ∧
    (∀ v, lookupEsi m.esi_name data = some v → m.is_fk = false →
      (storeUpsert dbx kind id out.1).2.1.lookup fname = some v) ∧
    (∀ v, lookupEsi m.esi_name data = some v → m.is_fk = true →
      ∃ rr : Int, v = .num rr ∧
        ((storeUpsert dbx kind id out.1).2.1.lookup fname = some (.num rr) ∨
         (storeUpsert dbx kind id out.1).2.1.lookup fname = some .null)) := by
  have hrec : (storeUpsert dbx kind id out.1).2.1 = mergeFields r out.1 := by
    simp [storeUpsert, hex]
  have hdsnd := defaults_keys_nodup w go data L db out hrun hnd
  refine ⟨?_, ?_, ?_⟩
  · intro hnull
    rw [hrec]
    exact lookup_mergeFields_none out.1 r fname
      (defaults_lookup_null w go data L db out hrun hnd fname m hmem hnull)
  · intro v hv hfk
    rw [hrec]
    exact lookup_mergeFields_some out.1 r fname v
      ((defaults_lookup_some w go data L db out hrun hnd fname m v hmem hpk hv).1 hfk) hdsnd
  · intro v hv hfk
    obtain ⟨rr, hvr, hcase⟩ :=
      (defaults_lookup_some w go data L db out hrun hnd fname m v hmem hpk hv).2 hfk
    refine ⟨rr, hvr, ?_⟩
    rw [hrec]
    rcases hcase with hcase | hcase
    · exact Or.inl (lookup_mergeFields_some out.1 r fname _ hcase hdsnd)
    · exact Or.inr (lookup_mergeFields_some out.1 r fname _ hcase hdsnd)

/-- Witness for C3 (amended): on the region fixture the re-upsert keeps the
previous `description` and overwrites `name` with the freshly resolved
value. -/
theorem update_overwrite_semantics_witness :
    (storeUpsert regionDB "EveRegion" 10000069 [("name", EsiValue.str "New Name")]).2.1.lookup
        "description" =
      List.lookup "description"
        [("id", EsiValue.num 10000069), ("name", EsiValue.str "Old Name"),
          ("description", EsiValue.str "old text")] :=
  (update_overwrite_semantics regionWorld (fun _ _ _ => .error .fuel)
    (.obj [("region_id", .num 10000069), ("name", .str "New Name")])
    [("name", { esi_name := EsiPath.flat "name", is_charfield := true }),
     ("description", { esi_name := EsiPath.flat "description", is_charfield := true })]
    DB.empty ([("name", EsiValue.str "New Name")], DB.empty, []) rfl (by decide)
    regionDB "EveRegion" 10000069
    [("id", EsiValue.num 10000069), ("name", EsiValue.str "Old Name"),
      ("description", EsiValue.str "old text")] rfl
    "description" { esi_name := EsiPath.flat "description", is_charfield := true }
    (by decide) rfl).1 rfl

/-- Counterexample to C3 as stated: re-upserting an existing region whose
new raw record resolves `description` to null (the key is absent) reports
`created=false` but leaves the previous local value `"old text"` in place
instead of overwriting it. -/
theorem full_overwrite_cex :
    (update_or_create_esi regionWorld 1 "EveRegion" 10000069 false true regionDB).map
      (fun res => (res.created, res.db.entities "EveRegion" 10000069)) =
    .ok (false, some [("id", .num 10000069), ("name", .str "New Name"),
      ("description", .str "old text")]) := rfl

/-! ## Frame lemmas: calls on other kinds do not touch a protected kind -/

theorem mem_of_lookup_eq_some {β : Type _} :
    ∀ {l : List (String × β)} {a : String} {b : β}, l.lookup a = some b → (a, b) ∈ l
  | [], _, _, h => by simp [List.lookup] at h
  | (g, v) :: t, a, b, h => by
    by_cases hk : a = g
    · subst hk
      have hv : v = b := by simpa [List.lookup] using h
      subst hv
      exact List.mem_cons_self _ _
    · have hbeq : (a == g) = false := beq_eq_false_iff_ne.mpr hk
      exact List.mem_cons_of_mem _
        (mem_of_lookup_eq_some (by simpa [List.lookup, hbeq] using h))

theorem frameRel_refl (w : World) (k : String) (db : DB) : FrameRel w k db db :=
  ⟨fun _ => rfl, fun _ _ _ _ => rfl, fun _ _ h => h⟩

theorem frameRel_trans {w : World} {k : String} {a b c : DB}
    (h1 : FrameRel w k a b) (h2 : FrameRel w k b c) : FrameRel w k a c :=
  ⟨fun i => (h2.1 i).trans (h1.1 i),
   fun ik hik pid key => (h2.2.1 ik hik pid key).trans (h1.2.1 ik hik pid key),
   fun kk i h => h2.2.2 kk i (h1.2.2 kk i h)⟩

theorem frameRel_setEntity (w : World) (k : String) (db : DB) (kind : String)
    (i : Int) (r : Record) (hne : kind ≠ k) :
    FrameRel w k db (db.setEntity kind i r) := by
  refine ⟨?_, ?_, ?_⟩
  · intro j
    have hc : ¬(k = kind ∧ j = i) := fun hc => hne hc.1.symm
    simp [DB.setEntity, hc]
  · intro ik _ pid key
    rfl
  · intro kk j h
    by_cases hc : kk = kind ∧ j = i
    · simp [DB.setEntity, hc]
    · simpa [DB.setEntity, hc] using h

theorem frameRel_setInline (w : World) (k : String) (db : DB) (ikind : String)
    (pid : Int) (key : EsiValue) (r : Record)
    (hik : ∀ ik, DeclaredOnlyBy w ik k = true → ik ≠ ikind) :
    FrameRel w k db (db.setInline ikind pid key r) := by
  refine ⟨fun _ => rfl, ?_, fun _ _ h => h⟩
  intro ik hdik p q
  have hc : ¬(ik = ikind ∧ p = pid ∧ q = key) := fun hc => hik ik hdik hc.1
  simp [DB.setInline, hc]

theorem frameRel_storeUpsert (w : World) (k : String) (db : DB) (kind : String)
    (id : Int) (ds : List (String × EsiValue)) (hne : kind ≠ k) :
    FrameRel w k db (storeUpsert db kind id ds).1 := by
  unfold storeUpsert
  split
  · exact frameRel_setEntity w k db kind id _ hne
  · exact frameRel_setEntity w k db kind id _ hne

theorem frameRel_storeInlineUpsert (w : World) (k : String) (db : DB)
    (ikind : String) (pid : Int) (key : EsiValue) (ds : List (String × EsiValue))
    (hik : ∀ ik, DeclaredOnlyBy w ik k = true → ik ≠ ikind) :
    FrameRel w k db (storeInlineUpsert db ikind pid key ds) := by
  unfold storeInlineUpsert
  split
  · exact frameRel_setInline w k db ikind pid key _ hik
  · exact frameRel_setInline w k db ikind pid key _ hik

theorem frameRel_fixup (w : World) (k : String) (db : DB) (kind : String)
    (id : Int) (r : Record) (hne : kind ≠ k) :
    FrameRel w k db (stargate_fixup db kind id r) := by
  unfold stargate_fixup
  split
  · split
    · exact frameRel_setEntity w k db kind _ _ hne
    · exact frameRel_refl w k db
  · exact frameRel_refl w k db

theorem storeUpsert_self_present (db : DB) (kind : String) (id : Int)
    (ds : List (String × EsiValue)) :
    ((storeUpsert db kind id ds).1.entities kind id).isSome = true := by
  unfold storeUpsert
  split
  · simp [DB.setEntity]
  · simp [DB.setEntity]

theorem setEntity_preserves_isSome (db : DB) (kind : String) (b : Int) (r : Record)
    (kk : String) (i : Int) (h : (db.entities kk i).isSome = true) :
    ((db.setEntity kind b r).entities kk i).isSome = true := by
  by_cases hc : kk = kind ∧ i = b
  · simp [DB.setEntity, hc]
  · simpa [DB.setEntity, hc] using h

theorem fixup_preserves_isSome (db : DB) (kind : String) (id : Int) (r : Record)
    (kk : String) (i : Int) (h : (db.entities kk i).isSome = true) :
    ((stargate_fixup db kind id r).entities kk i).isSome = true := by
  unfold stargate_fixup
  split
  · split
    · exact setEntity_preserves_isSome db kind _ _ kk i h
    · exact h
  · exact h

theorem ncr_entity_fk {w : World} {k kind : String} {sch : KindSchema}
    {p : String × EsiMapping}
    (hncr : NoCreateRefs w k = true) (hk : w.kinds.lookup kind = some sch)
    (hmem : p ∈ sch.mapping) (hfk : p.2.is_fk = true)
    (hcr : p.2.create_related = true) : p.2.related ≠ k := by
  intro hrel
  rw [NoCreateRefs, Bool.and_eq_true] at hncr
  have h2 := List.all_eq_true.mp hncr.1 (kind, sch) (mem_of_lookup_eq_some hk)
  have h3 := List.all_eq_true.mp h2 p hmem
  simp [hfk, hcr, hrel] at h3

theorem ncr_inline_fk {w : World} {k ikind : String} {isch : InlineSchema}
    {p : String × EsiMapping}
    (hncr : NoCreateRefs w k = true) (hik : w.inlineKinds.lookup ikind = some isch)
    (hmem : p ∈ isch.mapping) (hfk : p.2.is_fk = true)
    (hnp : (p.2.is_pk && p.2.is_parent_fk) = false) : p.2.related ≠ k := by
  intro hrel
  rw [NoCreateRefs, Bool.and_eq_true] at hncr
  have h2 := List.all_eq_true.mp hncr.2 (ikind, isch) (mem_of_lookup_eq_some hik)
  have h3 := List.all_eq_true.mp h2 p hmem
  simp [hfk, hnp, hrel] at h3

theorem ncf_child {w : World} {k kind : String} {sch : KindSchema}
    {c : String × String}
    (hncf : NoChildRefs w k = true) (hk : w.kinds.lookup kind = some sch)
    (hmem : c ∈ sch.children) : c.2 ≠ k := by
  intro hrel
  rw [NoChildRefs] at hncf
  have h2 := List.all_eq_true.mp hncf (kind, sch) (mem_of_lookup_eq_some hk)
  have h3 := List.all_eq_true.mp h2 c hmem
  simp [hrel] at h3

theorem declaredOnly_ne {w : World} {ik k kind : String} {sch : KindSchema}
    {q : String × String}
    (hd : DeclaredOnlyBy w ik k = true) (hk : w.kinds.lookup kind = some sch)
    (hkind : kind ≠ k) (hmem : q ∈ sch.inline_objects) : q.2 ≠ ik := by
  intro he
  rw [DeclaredOnlyBy] at hd
  have h2 := List.all_eq_true.mp hd (kind, sch) (mem_of_lookup_eq_some hk)
  rw [Bool.or_eq_true] at h2
  rcases h2 with hk' | hall
  · exact hkind (by simpa using hk')
  · have h3 := List.all_eq_true.mp hall q hmem
    simp [he] at h3

theorem defaults_frame (w : World) (k : String)
    (go : String → Int → DB → Except EngineError EngineResult)
    (data : EsiValue)
    (hgo : ∀ kk i db res, kk ≠ k → go kk i db = .ok res → FrameRel w k db res.db) :
    ∀ (L : List (String × EsiMapping)),
      (∀ p ∈ L, p.2.is_pk = false → p.2.is_fk = true → p.2.create_related = true →
        p.2.related ≠ k) →
      ∀ (db : DB) (out : List (String × EsiValue) × DB × List Job),
        defaults_from_esi_obj w go data L db = .ok out →
        FrameRel w k db out.2.1
  | [], _, db, out, hrun => by
    simp only [defaults_from_esi_obj] at hrun
    cases hrun
    exact frameRel_refl w k db
  | (g, mg) :: rest, hrel, db, out, hrun => by
    have hrel' : ∀ p ∈ rest, p.2.is_pk = false → p.2.is_fk = true →
        p.2.create_related = true → p.2.related ≠ k :=
      fun p hp => hrel p (List.mem_cons_of_mem _ hp)
    rcases defaults_cons_cases w go data g mg rest db out hrun with
      ⟨_, h⟩ | ⟨_, _, h⟩ | ⟨hpk0, v, hv, value, dbmid, jpre, ds', db', js', hrest, hout, hval⟩
    · exact defaults_frame w k go data hgo rest hrel' db out h
    · exact defaults_frame w k go data hgo rest hrel' db out h
    · have step : FrameRel w k db dbmid := by
        rcases hval with ⟨_, _, hdb, _⟩ | ⟨hfk, rr, hvr, hcase⟩
        · rw [hdb]
          exact frameRel_refl w k db
        · rcases hcase with ⟨_, hdb, _⟩ | ⟨_, hcr, res, hgo1, _, hdb, _⟩ | ⟨_, _, _, hdb, _⟩
          · rw [hdb]
            exact frameRel_refl w k db
          · rw [hdb]
            rw [Bool.and_eq_true] at hcr
            exact hgo mg.related rr db res
              (hrel (g, mg) (List.mem_cons_self _ _) hpk0 hfk hcr.1) hgo1
          · rw [hdb]
            exact frameRel_refl w k db
      have tail := defaults_frame w k go data hgo rest hrel' dbmid (ds', db', js') hrest
      rw [hout]
      exact frameRel_trans step tail

theorem mem_of_getLast?_eq_some {α : Type _} {l : List α} {x : α}
    (h : l.getLast? = some x) : x ∈ l := by
  obtain ⟨hne, hx⟩ := List.mem_getLast?_eq_getLast (show x ∈ l.getLast? by rw [h]; rfl)
  rw [hx]
  exact List.getLast_mem hne

theorem findInlinePks_other_mem (mapping : List (String × EsiMapping))
    (pf of : String) (om : EsiMapping)
    (h : findInlinePks mapping = some (pf, of, om)) :
    (of, om) ∈ mapping ∧ om.is_parent_fk = false := by
  unfold findInlinePks at h
  split at h
  · rename_i pfp op hpf hop
    obtain ⟨o1, o2⟩ := op
    injection h with h1
    injection h1 with h2 h3
    injection h3 with h4 h5
    subst h4
    subst h5
    have hmem := mem_of_getLast?_eq_some hop
    refine ⟨List.mem_of_mem_filter hmem, ?_⟩
    have hpred := List.of_mem_filter hmem
    rw [Bool.and_eq_true] at hpred
    have := hpred.2
    rw [Bool.not_eq_true'] at this
    exact this
  · cases h

theorem resolve_inline_pk_frame (w : World) (k : String)
    (go : String → Int → Bool → Bool → DB → Except EngineError EngineResult)
    (other : EsiMapping) (rawKey : EsiValue)
    (hgo : ∀ kk i inc wt db res, kk ≠ k → (inc = false ∨ NoChildRefs w k = true) →
      go kk i inc wt db = .ok res → FrameRel w k db res.db)
    (hother : other.is_fk = true → other.related ≠ k)
    (db : DB) (out : EsiValue × DB × List Job)
    (hrun : resolve_inline_pk w go other rawKey db = .ok out) :
    FrameRel w k db out.2.1 := by
  unfold resolve_inline_pk at hrun
  split at hrun
  · rename_i hfk
    split at hrun
    · rename_i r
      split at hrun
      · cases hrun
        exact frameRel_refl w k db
      · rename_i hdb
        split at hrun
        · rename_i hreg
          split at hrun
          · cases hrun
          · rename_i res hgoc
            cases hrun
            unfold getOrCreateWith at hgoc
            rw [hdb] at hgoc
            exact hgo other.related r false true db res (hother hfk) (Or.inl rfl) hgoc
        · cases hrun
          exact frameRel_refl w k db
    · cases hrun
  · cases hrun
    exact frameRel_refl w k db

theorem inline_rows_frame (w : World) (k : String)
    (go : String → Int → Bool → Bool → DB → Except EngineError EngineResult)
    (ikind : String) (parentId : Int) (pkKey : String) (other : EsiMapping)
    (imapping : List (String × EsiMapping))
    (hgo : ∀ kk i inc wt db res, kk ≠ k → (inc = false ∨ NoChildRefs w k = true) →
      go kk i inc wt db = .ok res → FrameRel w k db res.db)
    (hother : other.is_fk = true → other.related ≠ k)
    (himap : ∀ p ∈ imapping, p.2.is_pk = false → p.2.is_fk = true →
      p.2.create_related = true → p.2.related ≠ k)
    (hik : ∀ ik, DeclaredOnlyBy w ik k = true → ik ≠ ikind) :
    ∀ (rows : List EsiValue) (db : DB) (out : DB × List Job),
      inline_rows w go ikind parentId pkKey other imapping rows db = .ok out →
      FrameRel w k db out.1
  | [], db, out, hrun => by
    simp only [inline_rows] at hrun
    cases hrun
    exact frameRel_refl w k db
  | row :: rest, db, out, hrun => by
    simp only [inline_rows] at hrun
    split at hrun
    · split at hrun
      · cases hrun
      · rename_i rawKey hraw
        split at hrun
        · cases hrun
        · rename_i keyVal db1 jobs1 hresolve
          split at hrun
          · cases hrun
          · rename_i ds db2 jobs2 hds
            obtain ⟨⟨db3, js3⟩, hrest, hout⟩ := except_map_ok _ _ _ hrun
            have f1 : FrameRel w k db db1 :=
              resolve_inline_pk_frame w k go other rawKey hgo hother db _ hresolve
            have f2 : FrameRel w k db1 db2 :=
              defaults_frame w k (fun kk i db' => go kk i false true db') _
                (fun kk i db' res hkk hr => hgo kk i false true db' res hkk (Or.inl rfl) hr)
                imapping himap db1 (ds, db2, jobs2) hds
            have f3 : FrameRel w k db2 (storeInlineUpsert db2 ikind parentId keyVal ds) :=
              frameRel_storeInlineUpsert w k db2 ikind parentId keyVal ds hik
            have f4 : FrameRel w k (storeInlineUpsert db2 ikind parentId keyVal ds) db3 :=
              inline_rows_frame w k go ikind parentId pkKey other imapping hgo hother
                himap hik rest _ (db3, js3) hrest
            have hout1 : out.1 = db3 := by rw [← hout]
            rw [hout1]
            exact frameRel_trans f1 (frameRel_trans f2 (frameRel_trans f3 f4))
    · cases hrun

theorem inline_objects_frame (w : World) (k : String)
    (go : String → Int → Bool → Bool → DB → Except EngineError EngineResult)
    (parentData : EsiValue) (parentId : Int)
    (hgo : ∀ kk i inc wt db res, kk ≠ k → (inc = false ∨ NoChildRefs w k = true) →
      go kk i inc wt db = .ok res → FrameRel w k db res.db)
    (hncr : NoCreateRefs w k = true) :
    ∀ (inl : List (String × String)),
      (∀ q ∈ inl, ∀ ik, DeclaredOnlyBy w ik k = true → ik ≠ q.2) →
      ∀ (db : DB) (out : DB × List Job),
        update_or_create_inline_objects w go parentData parentId inl db = .ok out →
        FrameRel w k db out.1
  | [], _, db, out, hrun => by
    simp only [update_or_create_inline_objects] at hrun
    cases hrun
    exact frameRel_refl w k db
  | (ifield, ikind) :: rest, hq, db, out, hrun => by
    have hq' : ∀ q ∈ rest, ∀ ik, DeclaredOnlyBy w ik k = true → ik ≠ q.2 :=
      fun q hqq => hq q (List.mem_cons_of_mem _ hqq)
    have hikd : ∀ ik, DeclaredOnlyBy w ik k = true → ik ≠ ikind :=
      fun ik hik => hq (ifield, ikind) (List.mem_cons_self _ _) ik hik
    simp only [update_or_create_inline_objects] at hrun
    split at hrun
    · exact inline_objects_frame w k go parentData parentId hgo hncr rest hq' db out hrun
    · rename_i v hv
      split at hrun
      · exact inline_objects_frame w k go parentData parentId hgo hncr rest hq' db out hrun
      · split at hrun
        · cases hrun
        · rename_i isch hisch
          split at hrun
          · cases hrun
          · rename_i pf pkf other hfind
            split at hrun
            · cases hrun
            · rename_i esiKey hpath
              split at hrun
              · rename_i rows hnt
                split at hrun
                · cases hrun
                · rename_i db' jobs hrows
                  obtain ⟨⟨db'', js''⟩, hrest, hout⟩ := except_map_ok _ _ _ hrun
                  have hom := findInlinePks_other_mem isch.mapping pf pkf other hfind
                  have f1 : FrameRel w k db db' :=
                    inline_rows_frame w k go ikind parentId esiKey other isch.mapping hgo
                      (fun hfk => ncr_inline_fk hncr hisch hom.1 hfk
                        (by rw [hom.2, Bool.and_false]))
                      (fun p hp hpk hfk _ => ncr_inline_fk hncr hisch hp hfk
                        (by rw [hpk, Bool.false_and]))
                      hikd rows db (db', jobs) hrows
                  have f2 : FrameRel w k db' db'' :=
                    inline_objects_frame w k go parentData parentId hgo hncr rest hq'
                      db' (db'', js'') hrest
                  have hout1 : out.1 = db'' := by rw [← hout]
                  rw [hout1]
                  exact frameRel_trans f1 f2
              · cases hrun

theorem child_ids_frame (w : World) (k : String)
    (go : String → Int → Bool → Bool → DB → Except EngineError EngineResult)
    (childKind : String) (inc wt : Bool)
    (hgo : ∀ kk i inc' wt' db res, kk ≠ k → (inc' = false ∨ NoChildRefs w k = true) →
      go kk i inc' wt' db = .ok res → FrameRel w k db res.db)
    (hdis : inc = false ∨ NoChildRefs w k = true) (hck : childKind ≠ k) :
    ∀ (ids : List EsiValue) (db : DB) (out : DB × List Job),
      child_ids go childKind inc wt ids db = .ok out → FrameRel w k db out.1
  | [], db, out, hrun => by
    simp only [child_ids] at hrun
    cases hrun
    exact frameRel_refl w k db
  | v :: rest, db, out, hrun => by
    simp only [child_ids] at hrun
    split at hrun
    · rename_i i
      split at hrun
      · split at hrun
        · cases hrun
        · rename_i res hgoeq
          obtain ⟨⟨db', js'⟩, hrest, hout⟩ := except_map_ok _ _ _ hrun
          have f1 : FrameRel w k db res.db := hgo childKind i inc wt db res hck hdis hgoeq
          have f2 : FrameRel w k res.db db' :=
            child_ids_frame w k go childKind inc wt hgo hdis hck rest _ (db', js') hrest
          have hout1 : out.1 = db' := by rw [← hout]
          rw [hout1]
          exact frameRel_trans f1 f2
      · obtain ⟨⟨db', js'⟩, hrest, hout⟩ := except_map_ok _ _ _ hrun
        have f2 : FrameRel w k db db' :=
          child_ids_frame w k go childKind inc wt hgo hdis hck rest _ (db', js') hrest
        have hout1 : out.1 = db' := by rw [← hout]
        rw [hout1]
        exact f2
    · cases hrun

theorem children_frame (w : World) (k : String)
    (go : String → Int → Bool → Bool → DB → Except EngineError EngineResult)
    (parentData : EsiValue) (inc wt : Bool)
    (hgo : ∀ kk i inc' wt' db res, kk ≠ k → (inc' = false ∨ NoChildRefs w k = true) →
      go kk i inc' wt' db = .ok res → FrameRel w k db res.db)
    (hdis : inc = false ∨ NoChildRefs w k = true) :
    ∀ (cs : List (String × String)), (∀ c ∈ cs, c.2 ≠ k) →
      ∀ (db : DB) (out : DB × List Job),
        update_or_create_children go parentData inc wt cs db = .ok out →
        FrameRel w k db out.1
  | [], _, db, out, hrun => by
    simp only [update_or_create_children] at hrun
    cases hrun
    exact frameRel_refl w k db
  | (key, ck) :: rest, hcs, db, out, hrun => by
    have hcs' : ∀ c ∈ rest, c.2 ≠ k := fun c hc => hcs c (List.mem_cons_of_mem _ hc)
    have hckk : ck ≠ k := hcs (key, ck) (List.mem_cons_self _ _)
    simp only [update_or_create_children] at hrun
    split at hrun
    · exact children_frame w k go parentData inc wt hgo hdis rest hcs' db out hrun
    · rename_i v hv
      split at hrun
      · exact children_frame w k go parentData inc wt hgo hdis rest hcs' db out hrun
      · split at hrun
        · rename_i ids hnt
          split at hrun
          · cases hrun
          · rename_i db' js' hcids
            obtain ⟨⟨db'', js''⟩, hrest, hout⟩ := except_map_ok _ _ _ hrun
            have f1 : FrameRel w k db db' :=
              child_ids_frame w k go ck inc wt hgo hdis hckk ids db (db', js') hcids
            have f2 : FrameRel w k db' db'' :=
              children_frame w k go parentData inc wt hgo hdis rest hcs' db'
                (db'', js'') hrest
            have hout1 : out.1 = db'' := by rw [← hout]
            rw [hout1]
            exact frameRel_trans f1 f2
        · cases hrun

theorem frame_of_other_kind (w : World) (k : String)
    (hncr : NoCreateRefs w k = true) :
    ∀ (fuel : Nat) (k' : String) (i' : Int) (inc wt : Bool) (db : DB)
      (res : EngineResult),
      (inc = false ∨ NoChildRefs w k = true) → k' ≠ k →
      update_or_create_esi w fuel k' i' inc wt db = .ok res →
      FrameRel w k db res.db ∧ (res.db.entities k' i').isSome = true
  | 0, k', i', inc, wt, db, res, _, _, hrun => by
    simp only [update_or_create_esi] at hrun
    cases hrun
  | fuel + 1, k', i', inc, wt, db, res, hdis, hk', hrun => by
    have hgo : ∀ kk i inc' wt' db' r, kk ≠ k →
        (inc' = false ∨ NoChildRefs w k = true) →
        update_or_create_esi w fuel kk i inc' wt' db' = .ok r → FrameRel w k db' r.db :=
      fun kk i inc' wt' db' r hkk hdis' hr =>
        (frame_of_other_kind w k hncr fuel kk i inc' wt' db' r hdis' hkk hr).1
    simp only [update_or_create_esi] at hrun
    unfold engineStep at hrun
    split at hrun
    · cases hrun
    · rename_i sch hsch
      split at hrun
      · cases hrun
      · rename_i esi_data hremote
        split at hrun
        · cases hrun
        · rename_i eve_data hlist
          unfold materialize_from_data at hrun
          split at hrun
          · split at hrun
            · cases hrun
            · rename_i defaults db1 jobs1 hds
              split at hrun
              · cases hrun
              · rename_i db3 jobs2 hinl
                split at hrun
                · cases hrun
                · rename_i db4 jobs3 hch
                  cases hrun
                  have f1 : FrameRel w k db db1 :=
                    defaults_frame w k
                      (fun kk i db' => update_or_create_esi w fuel kk i false true db')
                      eve_data
                      (fun kk i db' r hkk hr =>
                        hgo kk i false true db' r hkk (Or.inl rfl) hr)
                      sch.mapping (fun p hp _ => ncr_entity_fk hncr hsch hp)
                      db (defaults, db1, jobs1) hds
                  have f2 : FrameRel w k db1 (storeUpsert db1 k' i' defaults).1 :=
                    frameRel_storeUpsert w k db1 k' i' defaults hk'
                  have f3 : FrameRel w k (storeUpsert db1 k' i' defaults).1 db3 :=
                    inline_objects_frame w k (update_or_create_esi w fuel) eve_data i'
                      hgo hncr sch.inline_objects
                      (fun q hq ik hik => (declaredOnly_ne hik hsch hk' hq).symm)
                      (storeUpsert db1 k' i' defaults).1 (db3, jobs2) hinl
                  have f4 : FrameRel w k db3 db4 := by
                    split at hch
                    · rename_i hcond
                      rcases hdis with hinc | hncf
                      · rw [Bool.and_eq_true, hinc] at hcond
                        exact absurd hcond.2 (by simp)
                      · exact children_frame w k (update_or_create_esi w fuel)
                          eve_data inc wt hgo (Or.inr hncf) sch.children
                          (fun c hc => ncf_child hncf hsch hc) db3 (db4, jobs3) hch
                    · injection hch with h
                      injection h with h1 h2
                      rw [← h1]
                      exact frameRel_refl w k db3
                  have hpres1 :
                      (((storeUpsert db1 k' i' defaults).1).entities k' i').isSome
                        = true :=
                    storeUpsert_self_present db1 k' i' defaults
                  have hpres2 : ((db3).entities k' i').isSome = true :=
                    f3.2.2 k' i' hpres1
                  have hpres3 : ((db4).entities k' i').isSome = true :=
                    f4.2.2 k' i' hpres2
                  have f5 : FrameRel w k db4
                      (if sch.is_stargate then
                        stargate_fixup db4 k' i' (storeUpsert db1 k' i' defaults).2.1
                      else db4) := by
                    split
                    · exact frameRel_fixup w k db4 k' i' _ hk'
                    · exact frameRel_refl w k db4
                  have hpres4 :
                      (((if sch.is_stargate then
                          stargate_fixup db4 k' i' (storeUpsert db1 k' i' defaults).2.1
                        else db4)).entities k' i').isSome = true := by
                    split
                    · exact fixup_preserves_isSome db4 k' i' _ k' i' hpres3
                    · exact hpres3
                  exact ⟨frameRel_trans f1 (frameRel_trans f2
                    (frameRel_trans f3 (frameRel_trans f4 f5))), hpres4⟩
          · cases hrun

theorem setEntity_self (db : DB) (k : String) (id : Int) (r : Record) :
    (db.setEntity k id r).entities k id = some r := by
  simp [DB.setEntity]

theorem storeInlineUpsert_entities (db : DB) (ikind : String) (pid : Int)
    (key : EsiValue) (ds : List (String × EsiValue)) :
    (storeInlineUpsert db ikind pid key ds).entities = db.entities := by
  unfold storeInlineUpsert
  split
  · rfl
  · rfl

theorem setField_eq_self : ∀ (r : Record) (f : String) (v : EsiValue),
    r.lookup f = some v → setField r f v = r
  | [], f, v, h => by simp [List.lookup] at h
  | (g, w) :: t, f, v, h => by
    by_cases hg : g = f
    · subst hg
      have hw : w = v := by simpa [List.lookup] using h
      subst hw
      simp [setField]
    · have hfg : (f == g) = false := beq_eq_false_iff_ne.mpr (fun hh => hg hh.symm)
      have ht : t.lookup f = some v := by simpa [List.lookup, hfg] using h
      simp [setField, hg, setField_eq_self t f v ht]

theorem mergeFields_eq_self : ∀ (ds : List (String × EsiValue)) (r : Record),
    (∀ p ∈ ds, r.lookup p.1 = some p.2) → mergeFields r ds = r
  | [], _, _ => rfl
  | (g, w) :: t, r, h => by
    rw [mergeFields_cons, setField_eq_self r g w (h (g, w) (List.mem_cons_self _ _))]
    exact mergeFields_eq_self t r (fun p hp => h p (List.mem_cons_of_mem _ hp))

theorem lookup_eq_of_mem_nodup {β : Type _} :
    ∀ (ds : List (String × β)) (f : String) (v : β),
      (f, v) ∈ ds → (ds.map Prod.fst).Nodup → ds.lookup f = some v
  | [], f, v, hmem, _ => absurd hmem (List.not_mem_nil _)
  | (g, w) :: t, f, v, hmem, hnd => by
    rcases List.mem_cons.mp hmem with hhead | htail
    · injection hhead with h1 h2
      subst h1
      subst h2
      simp [List.lookup]
    · have hf : f ≠ g := by
        intro hh
        subst hh
        simp only [List.map] at hnd
        exact (List.nodup_cons.mp hnd).1 (List.mem_map_of_mem Prod.fst htail)
      have hfg : (f == g) = false := beq_eq_false_iff_ne.mpr hf
      simp only [List.lookup, hfg]
      exact lookup_eq_of_mem_nodup t f v htail
        (by simp only [List.map] at hnd; exact (List.nodup_cons.mp hnd).2)

theorem defaults_lookup_pk (w : World)
    (go : String → Int → DB → Except EngineError EngineResult) (data : EsiValue) :
    ∀ (L : List (String × EsiMapping)) (db : DB)
      (out : List (String × EsiValue) × DB × List Job),
      defaults_from_esi_obj w go data L db = .ok out →
      ∀ f, (∀ m, (f, m) ∈ L → m.is_pk = true) → out.1.lookup f = none
  | [], db, out, hrun, f, _ => by
    simp only [defaults_from_esi_obj] at hrun
    cases hrun
    rfl
  | (g, mg) :: rest, db, out, hrun, f, hpk => by
    have hpk' : ∀ m, (f, m) ∈ rest → m.is_pk = true :=
      fun m hm => hpk m (List.mem_cons_of_mem _ hm)
    rcases defaults_cons_cases w go data g mg rest db out hrun with
      ⟨_, h⟩ | ⟨_, _, h⟩ |
      ⟨hmgpk, v, hv, value, dbmid, jpre, ds', db', js', hrest, hout, _⟩
    · exact defaults_lookup_pk w go data rest db out h f hpk'
    · exact defaults_lookup_pk w go data rest db out h f hpk'
    · have hf : f ≠ g := by
        intro hh
        subst hh
        rw [hpk mg (List.mem_cons_self _ _)] at hmgpk
        cases hmgpk
      have hds := defaults_lookup_pk w go data rest dbmid (ds', db', js') hrest f hpk'
      rw [hout]
      have hg : (f == g) = false := beq_eq_false_iff_ne.mpr hf
      simpa [List.lookup, hg] using hds

theorem inline_rows_entities (w : World) (k : String)
    (go : String → Int → Bool → Bool → DB → Except EngineError EngineResult)
    (ikind : String) (parentId : Int) (pkKey : String) (other : EsiMapping)
    (imapping : List (String × EsiMapping))
    (hgo : ∀ kk i inc wt db res, kk ≠ k → (inc = false ∨ NoChildRefs w k = true) →
      go kk i inc wt db = .ok res → FrameRel w k db res.db)
    (hother : other.is_fk = true → other.related ≠ k)
    (himap : ∀ p ∈ imapping, p.2.is_pk = false → p.2.is_fk = true →
      p.2.create_related = true → p.2.related ≠ k) :
    ∀ (rows : List EsiValue) (db : DB) (out : DB × List Job),
      inline_rows w go ikind parentId pkKey other imapping rows db = .ok out →
      ∀ j, out.1.entities k j = db.entities k j
  | [], db, out, hrun, j => by
    simp only [inline_rows] at hrun
    cases hrun
    rfl
  | row :: rest, db, out, hrun, j => by
    simp only [inline_rows] at hrun
    split at hrun
    · split at hrun
      · cases hrun
      · rename_i rawKey hraw
        split at hrun
        · cases hrun
        · rename_i keyVal db1 jobs1 hresolve
          split at hrun
          · cases hrun
          · rename_i ds db2 jobs2 hds
            obtain ⟨⟨db3, js3⟩, hrest, hout⟩ := except_map_ok _ _ _ hrun
            have e1 : db1.entities k j = db.entities k j :=
              (resolve_inline_pk_frame w k go other rawKey hgo hother db
                (keyVal, db1, jobs1) hresolve).1 j
            have e2 : db2.entities k j = db1.entities k j :=
              (defaults_frame w k (fun kk i db' => go kk i false true db') _
                (fun kk i db' res hkk hr =>
                  hgo kk i false true db' res hkk (Or.inl rfl) hr)
                imapping himap db1 (ds, db2, jobs2) hds).1 j
            have e3 : (storeInlineUpsert db2 ikind parentId keyVal ds).entities k j
                = db2.entities k j := by
              rw [storeInlineUpsert_entities]
            have e4 : db3.entities k j
                = (storeInlineUpsert db2 ikind parentId keyVal ds).entities k j :=
              inline_rows_entities w k go ikind parentId pkKey other imapping hgo hother
                himap rest _ (db3, js3) hrest j
            have hout1 : out.1 = db3 := by rw [← hout]
            rw [hout1, e4, e3, e2, e1]
    · cases hrun

theorem inline_objects_entities (w : World) (k : String)
    (go : String → Int → Bool → Bool → DB → Except EngineError EngineResult)
    (parentData : EsiValue) (parentId : Int)
    (hgo : ∀ kk i inc wt db res, kk ≠ k → (inc = false ∨ NoChildRefs w k = true) →
      go kk i inc wt db = .ok res → FrameRel w k db res.db)
    (hncr : NoCreateRefs w k = true) :
    ∀ (inl : List (String × String)) (db : DB) (out : DB × List Job),
      update_or_create_inline_objects w go parentData parentId inl db = .ok out →
      ∀ j, out.1.entities k j = db.entities k j
  | [], db, out, hrun, j => by
    simp only [update_or_create_inline_objects] at hrun
    cases hrun
    rfl
  | (ifield, ikind) :: rest, db, out, hrun, j => by
    simp only [update_or_create_inline_objects] at hrun
    split at hrun
    · exact inline_objects_entities w k go parentData parentId hgo hncr rest db out hrun j
    · rename_i v hv
      split at hrun
      · exact inline_objects_entities w k go parentData parentId hgo hncr rest db out
          hrun j
      · split at hrun
        · cases hrun
        · rename_i isch hisch
          split at hrun
          · cases hrun
          · rename_i pf pkf other hfind
            split at hrun
            · cases hrun
            · rename_i esiKey hpath
              split at hrun
              · rename_i rows hnt
                split at hrun
                · cases hrun
                · rename_i db' jobs hrows
                  obtain ⟨⟨db'', js''⟩, hrest, hout⟩ := except_map_ok _ _ _ hrun
                  have hom := findInlinePks_other_mem isch.mapping pf pkf other hfind
                  have e1 : db'.entities k j = db.entities k j :=
                    inline_rows_entities w k go ikind parentId esiKey other isch.mapping
                      hgo (fun hfk => ncr_inline_fk hncr hisch hom.1 hfk
                        (by rw [hom.2, Bool.and_false]))
                      (fun p hp hpk hfk _ => ncr_inline_fk hncr hisch hp hfk
                        (by rw [hpk, Bool.false_and]))
                      rows db (db', jobs) hrows j
                  have e2 : db''.entities k j = db'.entities k j :=
                    inline_objects_entities w k go parentData parentId hgo hncr rest db'
                      (db'', js'') hrest j
                  have hout1 : out.1 = db'' := by rw [← hout]
                  rw [hout1, e2, e1]
              · cases hrun

theorem defaults_replay (w : World)
    (go go2 : String → Int → DB → Except EngineError EngineResult)
    (data : EsiValue) :
    ∀ (L : List (String × EsiMapping)) (dbA dbB : DB)
      (outA outB : List (String × EsiValue) × DB × List Job),
      (∀ f m (rr : Int), (f, m) ∈ L → m.is_fk = true →
        lookupEsi m.esi_name data = some (.num rr) →
        ((m.create_related && (w.kinds.lookup m.related).isSome) = true →
          (dbA.entities m.related rr).isSome = true) ∧
        (dbB.entities m.related rr).isSome = (dbA.entities m.related rr).isSome) →
      defaults_from_esi_obj w go data L dbA = .ok outA →
      defaults_from_esi_obj w go2 data L dbB = .ok outB →
      outA.1 = outB.1 ∧ outA.2.1 = dbA ∧ outB.2.1 = dbB
  | [], dbA, dbB, outA, outB, _, hA, hB => by
    simp only [defaults_from_esi_obj] at hA hB
    cases hA
    cases hB
    exact ⟨rfl, rfl, rfl⟩
  | (g, mg) :: rest, dbA, dbB, outA, outB, hstable, hA, hB => by
    have hstable' : ∀ f m (rr : Int), (f, m) ∈ rest → m.is_fk = true →
        lookupEsi m.esi_name data = some (.num rr) →
        ((m.create_related && (w.kinds.lookup m.related).isSome) = true →
          (dbA.entities m.related rr).isSome = true) ∧
        (dbB.entities m.related rr).isSome = (dbA.entities m.related rr).isSome :=
      fun f m rr hm => hstable f m rr (List.mem_cons_of_mem _ hm)
    rcases defaults_cons_cases w go data g mg rest dbA outA hA with
      ⟨hpkA, hA'⟩ | ⟨hpkA, hlA, hA'⟩ |
      ⟨hpkA, vA, hlA, valueA, dbmidA, jpreA, dsA, dbA', jsA, hrestA, houtA, hvalA⟩
    · rcases defaults_cons_cases w go2 data g mg rest dbB outB hB with
        ⟨_, hB'⟩ | ⟨hpkB, _, hB'⟩ | ⟨hpkB, _, _, _⟩
      · exact defaults_replay w go go2 data rest dbA dbB outA outB hstable' hA' hB'
      · rw [hpkA] at hpkB
        cases hpkB
      · rw [hpkA] at hpkB
        cases hpkB
    · rcases defaults_cons_cases w go2 data g mg rest dbB outB hB with
        ⟨hpkB, _⟩ | ⟨_, _, hB'⟩ | ⟨_, vB, hlB, _⟩
      · rw [hpkB] at hpkA
        cases hpkA
      · exact defaults_replay w go go2 data rest dbA dbB outA outB hstable' hA' hB'
      · rw [hlA] at hlB
        cases hlB
    · rcases defaults_cons_cases w go2 data g mg rest dbB outB hB with
        ⟨hpkB, _⟩ | ⟨_, hlB, _⟩ |
        ⟨hpkB, vB, hlB, valueB, dbmidB, jpreB, dsB, dbB', jsB, hrestB, houtB, hvalB⟩
      · rw [hpkB] at hpkA
        cases hpkA
      · rw [hlA] at hlB
        cases hlB
      · rw [hlA] at hlB
        injection hlB with hv
        subst hv
        have hkey : valueA = valueB ∧ dbmidA = dbA ∧ dbmidB = dbB := by
          rcases hvalA with ⟨hfkA, hveqA, hdbA, _⟩ | ⟨hfkA, rrA, hvrA, hcaseA⟩
          · rcases hvalB with ⟨_, hveqB, hdbB, _⟩ | ⟨hfkB, _⟩
            · exact ⟨hveqA.trans hveqB.symm, hdbA, hdbB⟩
            · rw [hfkA] at hfkB
              cases hfkB
          · rcases hvalB with ⟨hfkB, _⟩ | ⟨_, rrB, hvrB, hcaseB⟩
            · rw [hfkB] at hfkA
              cases hfkA
            · rw [hvrA] at hvrB
              injection hvrB with hrr
              subst hrr
              rw [hvrA] at hlA
              have hs := hstable g mg rrA (List.mem_cons_self _ _) hfkA hlA
              rcases hcaseA with ⟨hvA', hdbA, _, r0A, hdbAsome⟩ |
                ⟨hdbAnone, hcrA, _⟩ | ⟨hdbAnone, hcrA, hvA', hdbA, _⟩
              · rcases hcaseB with ⟨hvB', hdbB, _, _, _⟩ |
                  ⟨hdbBnone, _, _⟩ | ⟨hdbBnone, _, _, _⟩
                · exact ⟨hvA'.trans hvB'.symm, hdbA, hdbB⟩
                · rw [hdbAsome, hdbBnone] at hs
                  simp at hs
                · rw [hdbAsome, hdbBnone] at hs
                  simp at hs
              · rw [hdbAnone] at hs
                have hcontra := hs.1 hcrA
                simp at hcontra
              · rcases hcaseB with ⟨hvB', hdbB, _, r0B, hdbBsome⟩ |
                  ⟨hdbBnone, hcrB, _⟩ | ⟨hdbBnone, hcrB', hvB', hdbB, _⟩
                · rw [hdbAnone, hdbBsome] at hs
                  simp at hs
                · rw [hcrA] at hcrB
                  cases hcrB
                · exact ⟨hvA'.trans hvB'.symm, hdbA, hdbB⟩
        obtain ⟨hveq, hdmA, hdmB⟩ := hkey
        rw [hdmA] at hrestA
        rw [hdmB] at hrestB
        have ih := defaults_replay w go go2 data rest dbA dbB (dsA, dbA', jsA)
          (dsB, dbB', jsB) hstable' hrestA hrestB
        have ih1 : dsA = dsB := ih.1
        have ih2 : dbA' = dbA := ih.2.1
        have ih3 : dbB' = dbB := ih.2.2
        rw [houtA, houtB]
        refine ⟨?_, ?_, ?_⟩
        · show (g, valueA) :: dsA = (g, valueB) :: dsB
          rw [hveq, ih1]
        · exact ih2
        · exact ih3

/-- C1 (amended): calling `update_or_create_esi` twice in succession on an
absent id, with the remote returning the same raw data, yields
`created=true` then `created=false` and an unchanged stored record —
provided no other kind's mapping or inline mapping creates records of this
kind, the kind is not the stargate specialization, children are either not
requested or never of this kind, mapped field names are unambiguous with
`id` reserved to the primary key, and the local presence of every
foreign-key target referenced by the mapping is the same at the start of
both calls.  Without the last proviso the claim fails (see the
counterexample). -/
theorem update_idempotent (w : World) (k : String) (sch : KindSchema) (id : Int)
    (inc wt : Bool) (fuel1 fuel2 : Nat) (esi_data eve_data : EsiValue)
    (db0 : DB) (res1 res2 : EngineResult)
    (hk : w.kinds.lookup k = some sch)
    (hsg : sch.is_stargate = false)
    (hncr : NoCreateRefs w k = true)
    (hdis : inc = false ∨ NoChildRefs w k = true)
    (hnd : (sch.mapping.map Prod.fst).Nodup)
    (hid : ∀ m, ("id", m) ∈ sch.mapping → m.is_pk = true)
    (h0 : db0.entities k id = none)
    (hfetch : w.remote k (if id != 0 && !sch.is_list_only then some id else none)
      = some esi_data)
    (hlist : handle_list_endpoints k sch id esi_data = .ok eve_data)
    (hstable : ∀ f m (rr : Int), (f, m) ∈ sch.mapping → m.is_fk = true →
      lookupEsi m.esi_name eve_data = some (.num rr) →
      ((m.create_related && (w.kinds.lookup m.related).isSome) = true →
        (db0.entities m.related rr).isSome = true) ∧
      (res1.db.entities m.related rr).isSome = (db0.entities m.related rr).isSome)
    (hrun1 : update_or_create_esi w (fuel1 + 1) k id inc wt db0 = .ok res1)
    (hrun2 : update_or_create_esi w (fuel2 + 1) k id inc wt res1.db = .ok res2) :
    res1.created = true ∧ res2.created = false ∧
    res2.db.entities k id = res1.db.entities k id ∧ res2.obj = res1.obj := by
  have hgo1 : ∀ kk i inc' wt' db' r, kk ≠ k →
      (inc' = false ∨ NoChildRefs w k = true) →
      update_or_create_esi w fuel1 kk i inc' wt' db' = .ok r → FrameRel w k db' r.db :=
    fun kk i inc' wt' db' r hkk hdis' hr =>
      (frame_of_other_kind w k hncr fuel1 kk i inc' wt' db' r hdis' hkk hr).1
  have hgo2 : ∀ kk i inc' wt' db' r, kk ≠ k →
      (inc' = false ∨ NoChildRefs w k = true) →
      update_or_create_esi w fuel2 kk i inc' wt' db' = .ok r → FrameRel w k db' r.db :=
    fun kk i inc' wt' db' r hkk hdis' hr =>
      (frame_of_other_kind w k hncr fuel2 kk i inc' wt' db' r hdis' hkk hr).1
  simp only [update_or_create_esi] at hrun1 hrun2
  unfold engineStep at hrun1 hrun2
  split at hrun1
  · cases hrun1
  · rename_i sch1 hsch1
    rw [hk] at hsch1
    injection hsch1 with hsch1'
    subst hsch1'
    split at hrun1
    · cases hrun1
    · rename_i esi1 hrem1
      rw [hfetch] at hrem1
      injection hrem1 with hrem1'
      subst hrem1'
      split at hrun1
      · cases hrun1
      · rename_i data1 hlist1
        rw [hlist] at hlist1
        injection hlist1 with hlist1'
        subst hlist1'
        unfold materialize_from_data at hrun1
        split at hrun1
        · split at hrun1
          · cases hrun1
          · rename_i ds1 db1 jobs1 hds1
            split at hrun1
            · cases hrun1
            · rename_i db3 jobs2 hinl1
              split at hrun1
              · cases hrun1
              · rename_i db4 jobs3 hch1
                simp only [hsg, Bool.false_eq_true, if_false] at hrun1
                cases hrun1
                -- now res1 is the explicit structure with store db4
                split at hrun2
                · cases hrun2
                · rename_i sch2 hsch2
                  rw [hk] at hsch2
                  injection hsch2 with hsch2'
                  subst hsch2'
                  split at hrun2
                  · cases hrun2
                  · rename_i esi2 hrem2
                    rw [hfetch] at hrem2
                    injection hrem2 with hrem2'
                    subst hrem2'
                    split at hrun2
                    · cases hrun2
                    · rename_i data2 hlist2
                      rw [hlist] at hlist2
                      injection hlist2 with hlist2'
                      subst hlist2'
                      unfold materialize_from_data at hrun2
                      split at hrun2
                      · split at hrun2
                        · cases hrun2
                        · rename_i ds2 db1' jobs1' hds2
                          split at hrun2
                          · cases hrun2
                          · rename_i db3' jobs2' hinl2
                            split at hrun2
                            · cases hrun2
                            · rename_i db4' jobs3' hch2
                              simp only [hsg, Bool.false_eq_true, if_false] at hrun2
                              cases hrun2
                              -- replay: the two defaults scans agree
                              have hstable' : ∀ f m (rr : Int), (f, m) ∈ sch.mapping →
                                  m.is_fk = true →
                                  lookupEsi m.esi_name eve_data = some (.num rr) →
                                  ((m.create_related &&
                                      (w.kinds.lookup m.related).isSome) = true →
                                    (db0.entities m.related rr).isSome = true) ∧
                                  (db4.entities m.related rr).isSome
                                    = (db0.entities m.related rr).isSome :=
                                fun f m rr hm hfk hl => hstable f m rr hm hfk hl
                              have hrep := defaults_replay w
                                (fun kk i db' =>
                                  update_or_create_esi w fuel1 kk i false true db')
                                (fun kk i db' =>
                                  update_or_create_esi w fuel2 kk i false true db')
                                eve_data sch.mapping db0 db4 (ds1, db1, jobs1)
                                (ds2, db1', jobs1') hstable' hds1 hds2
                              have hdseq : ds1 = ds2 := hrep.1
                              have hdb1 : db1 = db0 := hrep.2.1
                              have hdb1' : db1' = db4 := hrep.2.2
                              subst hdseq
                              rw [hdb1] at hds1 hinl1 ⊢
                              rw [hdb1'] at hds2 hinl2 ⊢
                              -- first upsert: creation
                              have hsu1 : storeUpsert db0 k id ds1
                                  = (db0.setEntity k id (("id", EsiValue.num id) :: ds1),
                                     ("id", EsiValue.num id) :: ds1, true) := by
                                unfold storeUpsert
                                rw [h0]
                              -- the record of kind k after call 1
                              have hpres : db4.entities k id
                                  = some (("id", EsiValue.num id) :: ds1) := by
                                have e1 : db3.entities k id
                                    = (storeUpsert db0 k id ds1).1.entities k id :=
                                  inline_objects_entities w k
                                    (update_or_create_esi w fuel1) eve_data id hgo1 hncr
                                    sch.inline_objects (storeUpsert db0 k id ds1).1
                                    (db3, jobs2) hinl1 id
                                have e2 : db4.entities k id = db3.entities k id := by
                                  split at hch1
                                  · rename_i hcond
                                    rcases hdis with hinc | hncf
                                    · rw [Bool.and_eq_true, hinc] at hcond
                                      exact absurd hcond.2 (by simp)
                                    · exact (children_frame w k
                                        (update_or_create_esi w fuel1) eve_data inc wt
                                        hgo1 (Or.inr hncf) sch.children
                                        (fun c hc => ncf_child hncf hk hc) db3
                                        (db4, jobs3) hch1).1 id
                                  · injection hch1 with hh
                                    injection hh with hh1 hh2
                                    rw [← hh1]
                                have e3 : (storeUpsert db0 k id ds1).1.entities k id
                                    = some (("id", EsiValue.num id) :: ds1) := by
                                  rw [hsu1]
                                  exact setEntity_self db0 k id _
                                rw [e2, e1, e3]
                              -- merge identity for the second upsert
                              have hnd1 : (ds1.map Prod.fst).Nodup :=
                                defaults_keys_nodup w _ eve_data sch.mapping db0
                                  (ds1, db0, jobs1) hds1 hnd
                              have hidnone : ds1.lookup "id" = none :=
                                defaults_lookup_pk w _ eve_data sch.mapping db0
                                  (ds1, db0, jobs1) hds1 "id" (fun m hm => hid m hm)
                              have hmerge :
                                  mergeFields (("id", EsiValue.num id) :: ds1) ds1
                                    = ("id", EsiValue.num id) :: ds1 := by
                                apply mergeFields_eq_self
                                intro p hp
                                obtain ⟨f, v⟩ := p
                                have hpl : ds1.lookup f = some v :=
                                  lookup_eq_of_mem_nodup ds1 f v hp hnd1
                                have hfid : f ≠ "id" := by
                                  intro hh
                                  subst hh
                                  rw [hidnone] at hpl
                                  cases hpl
                                have hfg : (f == "id") = false :=
                                  beq_eq_false_iff_ne.mpr hfid
                                simp only [List.lookup, hfg]
                                exact hpl
                              -- second upsert: update in place
                              have hsu2 : storeUpsert db4 k id ds1
                                  = (db4.setEntity k id (("id", EsiValue.num id) :: ds1),
                                     ("id", EsiValue.num id) :: ds1, false) := by
                                unfold storeUpsert
                                rw [hpres]
                                show (db4.setEntity k id
                                    (mergeFields (("id", EsiValue.num id) :: ds1) ds1),
                                  mergeFields (("id", EsiValue.num id) :: ds1) ds1,
                                  false) = _
                                rw [hmerge]
                              -- the record of kind k after call 2
                              have hpres2 : db4'.entities k id
                                  = some (("id", EsiValue.num id) :: ds1) := by
                                have e1 : db3'.entities k id
                                    = (storeUpsert db4 k id ds1).1.entities k id :=
                                  inline_objects_entities w k
                                    (update_or_create_esi w fuel2) eve_data id hgo2 hncr
                                    sch.inline_objects (storeUpsert db4 k id ds1).1
                                    (db3', jobs2') hinl2 id
                                have e2 : db4'.entities k id = db3'.entities k id := by
                                  split at hch2
                                  · rename_i hcond
                                    rcases hdis with hinc | hncf
                                    · rw [Bool.and_eq_true, hinc] at hcond
                                      exact absurd hcond.2 (by simp)
                                    · exact (children_frame w k
                                        (update_or_create_esi w fuel2) eve_data inc wt
                                        hgo2 (Or.inr hncf) sch.children
                                        (fun c hc => ncf_child hncf hk hc) db3'
                                        (db4', jobs3') hch2).1 id
                                  · injection hch2 with hh
                                    injection hh with hh1 hh2
                                    rw [← hh1]
                                have e3 : (storeUpsert db4 k id ds1).1.entities k id
                                    = some (("id", EsiValue.num id) :: ds1) := by
                                  rw [hsu2]
                                  exact setEntity_self db4 k id _
                                rw [e2, e1, e3]
                              refine ⟨?_, ?_, ?_, ?_⟩
                              · show (storeUpsert db0 k id ds1).2.2 = true
                                rw [hsu1]
                              · show (storeUpsert db4 k id ds1).2.2 = false
                                rw [hsu2]
                              · show db4'.entities k id = db4.entities k id
                                rw [hpres2, hpres]
                              · show (storeUpsert db4 k id ds1).2.1
                                  = (storeUpsert db0 k id ds1).2.1
                                rw [hsu1, hsu2]
                      · exact absurd (show eve_data.truthy = true from by assumption)
                          (show ¬eve_data.truthy = true from by assumption)
        · cases hrun1

/-- Witness for `update_idempotent`: the category fixture run twice from an
empty store, with `created=true` then `created=false` and identical record
and field values. -/
theorem update_idempotent_witness :
    categoryRes1.created = true ∧ categoryRes2.created = false ∧
    categoryRes2.db.entities "EveCategory" 6
      = categoryRes1.db.entities "EveCategory" 6 ∧
    categoryRes2.obj = categoryRes1.obj :=
  update_idempotent categoryWorld "EveCategory" categorySchema 6 false true 0 0
    categoryData categoryData DB.empty categoryRes1 categoryRes2
    rfl rfl rfl (Or.inl rfl) (by decide)
    (by
      intro m hm
      simp only [categorySchema, List.mem_cons, List.not_mem_nil, or_false] at hm
      rcases hm with h | h | h
      · injection h with h1 h2
        rw [h2]
      · injection h with h1 h2
        exact absurd h1 (by decide)
      · injection h with h1 h2
        exact absurd h1 (by decide))
    rfl rfl rfl
    (by
      intro f m rr hm hfk hl
      simp only [categorySchema, List.mem_cons, List.not_mem_nil, or_false] at hm
      rcases hm with h | h | h <;>
        · injection h with h1 h2
          rw [h2] at hfk
          exact absurd hfk (by decide))
    rfl rfl

/-- C1 counterexample: for the stargate kind the remote returns identical
raw data on both calls and the created flags are `true` then `false` as
claimed, but the `destination_eve_solar_system` field is null after the
first call and the destination system id after the second: the
`eve_solar_system` field's create-on-miss materialization (which runs
after the dont-create destination lookup) changes how the destination
foreign key resolves on the second call. -/
theorem update_idempotent_cex :
    (stargateRun1.map (fun r => (r.created,
      (r.db.entities "EveStargate" 50).map
        (fun q => q.lookup "destination_eve_solar_system")))
      = .ok (true, some (some .null))) ∧
    (stargateRun2.map (fun r => (r.created,
      (r.db.entities "EveStargate" 50).map
        (fun q => q.lookup "destination_eve_solar_system")))
      = .ok (false, some (some (.num 30001)))) := ⟨rfl, rfl⟩

theorem resolve_inline_pk_key (w : World)
    (go : String → Int → Bool → Bool → DB → Except EngineError EngineResult)
    (other : EsiMapping) (rawKey : EsiValue) (db : DB)
    (out : EsiValue × DB × List Job)
    (hrun : resolve_inline_pk w go other rawKey db = .ok out) :
    out.1 = rawKey ∨ out.1 = EsiValue.null := by
  unfold resolve_inline_pk at hrun
  split at hrun
  · split at hrun
    · rename_i r
      split at hrun
      · cases hrun
        exact Or.inl rfl
      · split at hrun
        · split at hrun
          · cases hrun
          · cases hrun
            exact Or.inl rfl
        · cases hrun
          exact Or.inr rfl
    · cases hrun
  · cases hrun
    exact Or.inl rfl

theorem setInline_self (db : DB) (ik : String) (pid : Int) (key : EsiValue)
    (r : Record) : (db.setInline ik pid key r).inlines ik pid key = some r := by
  simp [DB.setInline]

theorem setInline_other (db : DB) (ik : String) (pid : Int) (key : EsiValue)
    (r : Record) (ik' : String) (pid' : Int) (key' : EsiValue)
    (h : ¬(ik' = ik ∧ pid' = pid ∧ key' = key)) :
    (db.setInline ik pid key r).inlines ik' pid' key' = db.inlines ik' pid' key' := by
  simp [DB.setInline, h]

theorem storeInlineUpsert_self_isSome (db : DB) (ik : String) (pid : Int)
    (key : EsiValue) (ds : List (String × EsiValue)) :
    ((storeInlineUpsert db ik pid key ds).inlines ik pid key).isSome = true := by
  unfold storeInlineUpsert
  split
  · rw [setInline_self]
    rfl
  · rw [setInline_self]
    rfl

theorem storeInlineUpsert_other (db : DB) (ik : String) (pid : Int)
    (key : EsiValue) (ds : List (String × EsiValue)) (ik' : String) (pid' : Int)
    (key' : EsiValue) (h : ¬(ik' = ik ∧ pid' = pid ∧ key' = key)) :
    (storeInlineUpsert db ik pid key ds).inlines ik' pid' key'
      = db.inlines ik' pid' key' := by
  unfold storeInlineUpsert
  split
  · exact setInline_other db ik pid key _ ik' pid' key' h
  · exact setInline_other db ik pid key _ ik' pid' key' h

theorem inline_rows_writes (w : World) (k : String)
    (go : String → Int → Bool → Bool → DB → Except EngineError EngineResult)
    (ikind : String) (parentId : Int) (pkKey : String) (other : EsiMapping)
    (imapping : List (String × EsiMapping))
    (hgo : ∀ kk i inc wt db res, kk ≠ k → (inc = false ∨ NoChildRefs w k = true) →
      go kk i inc wt db = .ok res → FrameRel w k db res.db)
    (hother : other.is_fk = true → other.related ≠ k)
    (himap : ∀ p ∈ imapping, p.2.is_pk = false → p.2.is_fk = true →
      p.2.create_related = true → p.2.related ≠ k)
    (hdecl : DeclaredOnlyBy w ikind k = true) :
    ∀ (rows : List EsiValue) (db : DB) (out : DB × List Job),
      inline_rows w go ikind parentId pkKey other imapping rows db = .ok out →
      (∀ row ∈ rows, ∃ rawKey, lookupPath (.flat pkKey) row = some rawKey ∧
        ((out.1.inlines ikind parentId rawKey).isSome = true ∨
         (out.1.inlines ikind parentId EsiValue.null).isSome = true)) ∧
      (∀ ik, DeclaredOnlyBy w ik k = true → ∀ pid key,
        out.1.inlines ik pid key ≠ db.inlines ik pid key →
        ik = ikind ∧ pid = parentId ∧
        (out.1.inlines ik pid key).isSome = true ∧
        (key ∈ rows.filterMap (fun row => lookupPath (.flat pkKey) row) ∨
          key = EsiValue.null))
  | [], db, out, hrun => by
    simp only [inline_rows] at hrun
    cases hrun
    exact ⟨fun row hrow => absurd hrow (List.not_mem_nil _),
      fun ik hik pid key hch => absurd rfl hch⟩
  | row :: rest, db, out, hrun => by
    simp only [inline_rows] at hrun
    split at hrun
    · rename_i fields
      split at hrun
      · cases hrun
      · rename_i rawKey hraw
        split at hrun
        · cases hrun
        · rename_i keyVal db1 jobs1 hresolve
          split at hrun
          · cases hrun
          · rename_i ds db2 jobs2 hds
            obtain ⟨⟨db3, js3⟩, hrest, hout⟩ := except_map_ok _ _ _ hrun
            have f1 : FrameRel w k db db1 :=
              resolve_inline_pk_frame w k go other rawKey hgo hother db
                (keyVal, db1, jobs1) hresolve
            have f2 : FrameRel w k db1 db2 :=
              defaults_frame w k (fun kk i db' => go kk i false true db') _
                (fun kk i db' res hkk hr =>
                  hgo kk i false true db' res hkk (Or.inl rfl) hr)
                imapping himap db1 (ds, db2, jobs2) hds
            have hkv : keyVal = rawKey ∨ keyVal = EsiValue.null :=
              resolve_inline_pk_key w go other rawKey db (keyVal, db1, jobs1) hresolve
            obtain ⟨ihA, ihB⟩ :=
              inline_rows_writes w k go ikind parentId pkKey other imapping hgo hother
                himap hdecl rest (storeInlineUpsert db2 ikind parentId keyVal ds)
                (db3, js3) hrest
            have hout1 : out.1 = db3 := by rw [← hout]
            have hslotpres : (db3.inlines ikind parentId keyVal).isSome = true := by
              by_cases hc : db3.inlines ikind parentId keyVal
                  = (storeInlineUpsert db2 ikind parentId keyVal ds).inlines ikind
                      parentId keyVal
              · rw [hc]
                exact storeInlineUpsert_self_isSome db2 ikind parentId keyVal ds
              · exact (ihB ikind hdecl parentId keyVal hc).2.2.1
            constructor
            · intro row2 hrow2
              rcases List.mem_cons.mp hrow2 with hhead | htail
              · subst hhead
                refine ⟨rawKey, hraw, ?_⟩
                rw [hout1]
                rcases hkv with hkv | hkv
                · rw [← hkv]
                  exact Or.inl hslotpres
                · rw [hkv] at hslotpres
                  exact Or.inr hslotpres
              · obtain ⟨rk, hrk, hp⟩ := ihA row2 htail
                rw [hout1]
                exact ⟨rk, hrk, hp⟩
            · intro ik hik pid key hchange
              rw [hout1] at hchange
              have e12 : db2.inlines ik pid key = db.inlines ik pid key :=
                (f2.2.1 ik hik pid key).trans (f1.2.1 ik hik pid key)
              by_cases hslot : ik = ikind ∧ pid = parentId ∧ key = keyVal
              · refine ⟨hslot.1, hslot.2.1, ?_, ?_⟩
                · rw [hout1, hslot.1, hslot.2.1, hslot.2.2]
                  exact hslotpres
                · rcases hkv with hkv | hkv
                  · left
                    rw [List.mem_filterMap]
                    exact ⟨EsiValue.obj fields, List.mem_cons_self _ _,
                      by rw [hraw, hslot.2.2, hkv]⟩
                  · right
                    rw [hslot.2.2, hkv]
              · have hds2 : (storeInlineUpsert db2 ikind parentId keyVal ds).inlines
                    ik pid key = db.inlines ik pid key :=
                  (storeInlineUpsert_other db2 ikind parentId keyVal ds ik pid key
                    hslot).trans e12
                have hc : db3.inlines ik pid key
                    ≠ (storeInlineUpsert db2 ikind parentId keyVal ds).inlines
                        ik pid key := by
                  intro he
                  exact hchange (he.trans hds2)
                obtain ⟨hb1, hb2, hb3, hb4⟩ := ihB ik hik pid key hc
                refine ⟨hb1, hb2, by rw [hout1]; exact hb3, ?_⟩
                rcases hb4 with hb4 | hb4
                · left
                  rw [List.mem_filterMap] at hb4 ⊢
                  obtain ⟨a, ha, hfa⟩ := hb4
                  exact ⟨a, List.mem_cons_of_mem _ ha, hfa⟩
                · right
                  exact hb4
    · cases hrun

theorem payloadInlineKeys_cons_arr (w : World) (ifield ikind : String)
    (rest : List (String × String)) (parentData : EsiValue) (rows : List EsiValue)
    (isch : InlineSchema) (pf pkf : String) (other : EsiMapping) (esiKey : String)
    (hv : lookupEsi (.flat ifield) parentData = some (.arr rows))
    (hisch : w.inlineKinds.lookup ikind = some isch)
    (hfind : findInlinePks isch.mapping = some (pf, pkf, other))
    (hpath : other.esi_name = .flat esiKey) :
    payloadInlineKeys w ((ifield, ikind) :: rest) parentData
      = rows.filterMap (fun row => lookupPath (.flat esiKey) row)
        ++ payloadInlineKeys w rest parentData := by
  simp only [payloadInlineKeys]
  rw [hv, hisch]
  show (match findInlinePks isch.mapping with
        | some (_, _, other) =>
          match other.esi_name with
          | .flat esiKey => rows.filterMap (fun row => lookupPath (.flat esiKey) row)
          | .nested _ _ => []
        | none => []) ++ payloadInlineKeys w rest parentData = _
  rw [hfind]
  show (match other.esi_name with
        | .flat esiKey => rows.filterMap (fun row => lookupPath (.flat esiKey) row)
        | .nested _ _ => []) ++ payloadInlineKeys w rest parentData = _
  rw [hpath]

/-- C7: a parent upsert's inline pass materializes every row of every
inline field present and truthy in the raw payload, keyed by the composite
(parent reference, functional key value) — the key being the row's raw
functional value, or null when an unresolvable foreign key collapses it —
and it never deletes an existing inline row: a slot of an inline kind
declared only by this parent's kind either keeps its exact previous value,
or is freshly (re)written with a record under this parent's id and a key
drawn from the payload's functional keys (or null).  In particular an
existing row whose functional key no longer appears in the updated payload
is left unchanged. -/
theorem inline_upsert_semantics (w : World) (k : String) (fuel : Nat)
    (parentData : EsiValue) (parentId : Int)
    (hncr : NoCreateRefs w k = true) :
    ∀ (inl : List (String × String)),
      (∀ q ∈ inl, DeclaredOnlyBy w q.2 k = true) →
      ∀ (db : DB) (out : DB × List Job),
        update_or_create_inline_objects w (update_or_create_esi w fuel) parentData
          parentId inl db = .ok out →
        (∀ q ∈ inl, ∀ rows, lookupEsi (.flat q.1) parentData = some (.arr rows) →
          (EsiValue.arr rows).truthy = true →
          ∀ row ∈ rows, ∃ keyVal,
            (out.1.inlines q.2 parentId keyVal).isSome = true) ∧
        (∀ ik, DeclaredOnlyBy w ik k = true → ∀ pid key,
          out.1.inlines ik pid key ≠ db.inlines ik pid key →
          pid = parentId ∧ (out.1.inlines ik pid key).isSome = true ∧
          (key ∈ payloadInlineKeys w inl parentData ∨ key = EsiValue.null))
  | [], _, db, out, hrun => by
    simp only [update_or_create_inline_objects] at hrun
    cases hrun
    exact ⟨fun q hq => absurd hq (List.not_mem_nil _),
      fun ik hik pid key hch => absurd rfl hch⟩
  | (ifield, ikind) :: rest, hdecl, db, out, hrun => by
    have hgo : ∀ kk i inc wt db2 res, kk ≠ k →
        (inc = false ∨ NoChildRefs w k = true) →
        update_or_create_esi w fuel kk i inc wt db2 = .ok res →
        FrameRel w k db2 res.db :=
      fun kk i inc wt db2 res hkk hdis hr =>
        (frame_of_other_kind w k hncr fuel kk i inc wt db2 res hdis hkk hr).1
    have hdecl2 : ∀ q ∈ rest, DeclaredOnlyBy w q.2 k = true :=
      fun q hq => hdecl q (List.mem_cons_of_mem _ hq)
    have hdechead : DeclaredOnlyBy w ikind k = true :=
      hdecl (ifield, ikind) (List.mem_cons_self _ _)
    simp only [update_or_create_inline_objects] at hrun
    split at hrun
    · rename_i hv
      obtain ⟨ihA, ihB⟩ := inline_upsert_semantics w k fuel parentData parentId hncr
        rest hdecl2 db out hrun
      constructor
      · intro q hq rows hlook htr row hrow
        rcases List.mem_cons.mp hq with hhead | htail
        · subst hhead
          rw [hv] at hlook
          cases hlook
        · exact ihA q htail rows hlook htr row hrow
      · intro ik hik pid key hch
        obtain ⟨hb1, hb2, hb3⟩ := ihB ik hik pid key hch
        refine ⟨hb1, hb2, ?_⟩
        rcases hb3 with hb3 | hb3
        · left
          simp only [payloadInlineKeys]
          exact List.mem_append.mpr (Or.inr hb3)
        · right
          exact hb3
    · rename_i v hv
      split at hrun
      · rename_i hnt
        obtain ⟨ihA, ihB⟩ := inline_upsert_semantics w k fuel parentData parentId hncr
          rest hdecl2 db out hrun
        constructor
        · intro q hq rows hlook htr row hrow
          rcases List.mem_cons.mp hq with hhead | htail
          · subst hhead
            rw [hv] at hlook
            injection hlook with he
            rw [← he] at htr
            rw [htr] at hnt
            simp at hnt
          · exact ihA q htail rows hlook htr row hrow
        · intro ik hik pid key hch
          obtain ⟨hb1, hb2, hb3⟩ := ihB ik hik pid key hch
          refine ⟨hb1, hb2, ?_⟩
          rcases hb3 with hb3 | hb3
          · left
            simp only [payloadInlineKeys]
            exact List.mem_append.mpr (Or.inr hb3)
          · right
            exact hb3
      · split at hrun
        · cases hrun
        · rename_i isch hisch
          split at hrun
          · cases hrun
          · rename_i pf pkf other hfind
            split at hrun
            · cases hrun
            · rename_i esiKey hpath
              split at hrun
              · rename_i rows hnt
                split at hrun
                · cases hrun
                · rename_i db2 jobs hrows
                  obtain ⟨⟨db3, js3⟩, hrest, hout⟩ := except_map_ok _ _ _ hrun
                  have hom := findInlinePks_other_mem isch.mapping pf pkf other hfind
                  have hother : other.is_fk = true → other.related ≠ k :=
                    fun hfk => ncr_inline_fk hncr hisch hom.1 hfk
                      (by rw [hom.2, Bool.and_false])
                  have himap : ∀ p ∈ isch.mapping, p.2.is_pk = false →
                      p.2.is_fk = true → p.2.create_related = true →
                      p.2.related ≠ k :=
                    fun p hp hpk hfk _ => ncr_inline_fk hncr hisch hp hfk
                      (by rw [hpk, Bool.false_and])
                  obtain ⟨rwA, rwB⟩ := inline_rows_writes w k
                    (update_or_create_esi w fuel) ikind parentId esiKey other
                    isch.mapping hgo hother himap hdechead rows db (db2, jobs) hrows
                  obtain ⟨ihA, ihB⟩ := inline_upsert_semantics w k fuel parentData
                    parentId hncr rest hdecl2 db2 (db3, js3) hrest
                  have hout1 : out.1 = db3 := by rw [← hout]
                  have hpersist : ∀ key0,
                      (db2.inlines ikind parentId key0).isSome = true →
                      (db3.inlines ikind parentId key0).isSome = true := by
                    intro key0 h
                    by_cases hc : db3.inlines ikind parentId key0
                        = db2.inlines ikind parentId key0
                    · rw [hc]
                      exact h
                    · exact (ihB ikind hdechead parentId key0 hc).2.1
                  constructor
                  · intro q hq rows2 hlook htr row hrow
                    rw [hout1]
                    rcases List.mem_cons.mp hq with hhead | htail
                    · subst hhead
                      rw [hv] at hlook
                      injection hlook with he
                      injection he with he2
                      subst he2
                      obtain ⟨rawKey, hraw, hpres⟩ := rwA row hrow
                      rcases hpres with h | h
                      · exact ⟨rawKey, hpersist rawKey h⟩
                      · exact ⟨EsiValue.null, hpersist _ h⟩
                    · exact ihA q htail rows2 hlook htr row hrow
                  · intro ik hik pid key hch
                    rw [hout1] at hch
                    by_cases hc : db3.inlines ik pid key = db2.inlines ik pid key
                    · have hchrows : db2.inlines ik pid key ≠ db.inlines ik pid key :=
                        fun he => hch (hc.trans he)
                      obtain ⟨hb1, hb2, hb3, hb4⟩ := rwB ik hik pid key hchrows
                      refine ⟨hb2, ?_, ?_⟩
                      · rw [hout1, hc]
                        exact hb3
                      · rcases hb4 with hb4 | hb4
                        · left
                          rw [payloadInlineKeys_cons_arr w ifield ikind rest
                            parentData rows isch pf pkf other esiKey hv hisch
                            hfind hpath]
                          exact List.mem_append.mpr (Or.inl hb4)
                        · right
                          exact hb4
                    · obtain ⟨hb1, hb2, hb3⟩ := ihB ik hik pid key hc
                      refine ⟨hb1, by rw [hout1]; exact hb2, ?_⟩
                      rcases hb3 with hb3 | hb3
                      · left
                        simp only [payloadInlineKeys]
                        exact List.mem_append.mpr (Or.inr hb3)
                      · right
                        exact hb3
              · cases hrun

/-- Witness for `inline_upsert_semantics`: the dogma-attribute fixture, one
payload row upserted under its composite key while a stale row under an old
key survives untouched. -/
theorem inline_upsert_semantics_witness :
    (∀ q ∈ typeSchema.inline_objects, ∀ rows,
      lookupEsi (.flat q.1) typeData = some (.arr rows) →
      (EsiValue.arr rows).truthy = true →
      ∀ row ∈ rows, ∃ keyVal,
        ((typeOutDB, ([] : List Job)).1.inlines q.2 603 keyVal).isSome = true) ∧
    (∀ ik, DeclaredOnlyBy typeWorld ik "EveType" = true → ∀ pid key,
      (typeOutDB, ([] : List Job)).1.inlines ik pid key
        ≠ staleDB.inlines ik pid key →
      pid = 603 ∧
      ((typeOutDB, ([] : List Job)).1.inlines ik pid key).isSome = true ∧
      (key ∈ payloadInlineKeys typeWorld typeSchema.inline_objects typeData ∨
        key = EsiValue.null)) :=
  inline_upsert_semantics typeWorld "EveType" 1 typeData 603 (by decide)
    typeSchema.inline_objects
    (by
      intro q hq
      rcases List.mem_cons.mp hq with h | h
      · rw [h]
        decide
      · exact absurd h (List.not_mem_nil _))
    staleDB (typeOutDB, []) rfl

theorem child_ids_async
    (go : String → Int → Bool → Bool → DB → Except EngineError EngineResult)
    (ck : String) (inc : Bool) :
    ∀ (ids : List EsiValue) (db : DB) (out : DB × List Job),
      child_ids go ck inc false ids db = .ok out →
      out.1 = db ∧ out.2 = ids.filterMap (fun v =>
        match v with
        | EsiValue.num i => some ((ck, i, inc, false) : Job)
        | _ => none)
  | [], db, out, hrun => by
    simp only [child_ids] at hrun
    cases hrun
    exact ⟨rfl, rfl⟩
  | v :: rest, db, out, hrun => by
    simp only [child_ids] at hrun
    split at hrun
    · rename_i i
      split at hrun
      · rename_i hfalse
        cases hfalse
      · obtain ⟨⟨db2, js2⟩, hrest, hout⟩ := except_map_ok _ _ _ hrun
        obtain ⟨ih1, ih2⟩ := child_ids_async go ck inc rest db (db2, js2) hrest
        refine ⟨?_, ?_⟩
        · have h1 : out.1 = db2 := by rw [← hout]
          rw [h1]
          exact ih1
        · have h2 : out.2 = (ck, i, inc, false) :: js2 := by rw [← hout]
          have ih2b : js2 = rest.filterMap (fun v =>
              match v with
              | EsiValue.num i => some ((ck, i, inc, false) : Job)
              | _ => none) := ih2
          rw [h2, List.filterMap_cons]
          show (ck, i, inc, false) :: js2 = (ck, i, inc, false) :: _
          rw [ih2b]
    · cases hrun

theorem children_async_noop
    (go : String → Int → Bool → Bool → DB → Except EngineError EngineResult)
    (parentData : EsiValue) (inc : Bool) :
    ∀ (cs : List (String × String)) (db : DB) (out : DB × List Job),
      update_or_create_children go parentData inc false cs db = .ok out →
      out.1 = db
  | [], db, out, hrun => by
    simp only [update_or_create_children] at hrun
    cases hrun
    rfl
  | (key, ck) :: rest, db, out, hrun => by
    simp only [update_or_create_children] at hrun
    split at hrun
    · exact children_async_noop go parentData inc rest db out hrun
    · rename_i v hv
      split at hrun
      · exact children_async_noop go parentData inc rest db out hrun
      · split at hrun
        · rename_i ids hnt
          split at hrun
          · cases hrun
          · rename_i db2 js2 hcids
            obtain ⟨⟨db3, js3⟩, hrest, hout⟩ := except_map_ok _ _ _ hrun
            have h1 := (child_ids_async go ck inc ids db (db2, js2) hcids).1
            have h2 := children_async_noop go parentData inc rest db2 (db3, js3) hrest
            have h3 : out.1 = db3 := by rw [← hout]
            rw [h3]
            exact h2.trans h1
        · cases hrun

/-- C8: the wait_for_children=false path of the child loop performs no
writes and enqueues one deferred job per child id carrying exactly the
forwarded parameters (child kind, id, include_children,
wait_for_children); the worker task runs the identical update_or_create
entry point on the job's parameters; and a child materialization differing
only in the wait_for_children flag stores the same child record — same
store entry, returned record and created flag. -/
theorem deferred_child_equivalence (w : World) (fuel : Nat) (ck : String)
    (sch : KindSchema) (inc : Bool)
    (hsch : w.kinds.lookup ck = some sch)
    (hsg : sch.is_stargate = false)
    (hncr : NoCreateRefs w ck = true)
    (hncf : NoChildRefs w ck = true) :
    (∀ (go : String → Int → Bool → Bool → DB → Except EngineError EngineResult)
      (ids : List EsiValue) (db : DB) (out : DB × List Job),
      child_ids go ck inc false ids db = .ok out →
      out.1 = db ∧ out.2 = ids.filterMap (fun v =>
        match v with
        | EsiValue.num i => some ((ck, i, inc, false) : Job)
        | _ => none)) ∧
    (∀ (i : Int) (wt : Bool) (db : DB),
      load_eve_entity w fuel (ck, i, inc, wt) db
        = update_or_create_esi w fuel ck i inc wt db) ∧
    (∀ (i : Int) (db : DB) (res1 res2 : EngineResult),
      update_or_create_esi w (fuel + 1) ck i inc true db = .ok res1 →
      update_or_create_esi w (fuel + 1) ck i inc false db = .ok res2 →
      res1.db.entities ck i = res2.db.entities ck i ∧
      res1.obj = res2.obj ∧ res1.created = res2.created) := by
  refine ⟨fun go ids db out h => child_ids_async go ck inc ids db out h,
    fun i wt db => rfl, ?_⟩
  intro i db res1 res2 hrun1 hrun2
  have hgo : ∀ kk j inc2 wt2 db2 r, kk ≠ ck →
      (inc2 = false ∨ NoChildRefs w ck = true) →
      update_or_create_esi w fuel kk j inc2 wt2 db2 = .ok r →
      FrameRel w ck db2 r.db :=
    fun kk j inc2 wt2 db2 r hkk hdis hr =>
      (frame_of_other_kind w ck hncr fuel kk j inc2 wt2 db2 r hdis hkk hr).1
  simp only [update_or_create_esi] at hrun1 hrun2
  unfold engineStep at hrun1 hrun2
  split at hrun1
  · cases hrun1
  · rename_i sch1 hsch1
    rw [hsch] at hsch1
    injection hsch1 with he1
    subst he1
    split at hrun1
    · cases hrun1
    · rename_i esi1 hrem1
      split at hrun1
      · cases hrun1
      · rename_i data1 hlist1
        unfold materialize_from_data at hrun1
        split at hrun1
        · split at hrun1
          · cases hrun1
          · rename_i ds1 db1 jobs1 hds1
            split at hrun1
            · cases hrun1
            · rename_i db3 jobs2 hinl1
              split at hrun1
              · cases hrun1
              · rename_i db4 jobs3 hch1
                simp only [hsg, Bool.false_eq_true, if_false] at hrun1
                cases hrun1
                split at hrun2
                · cases hrun2
                · rename_i sch2 hsch2
                  rw [hsch] at hsch2
                  injection hsch2 with he2
                  subst he2
                  split at hrun2
                  · cases hrun2
                  · rename_i esi2 hrem2
                    rw [hrem1] at hrem2
                    injection hrem2 with he3
                    subst he3
                    split at hrun2
                    · cases hrun2
                    · rename_i data2 hlist2
                      rw [hlist1] at hlist2
                      injection hlist2 with he4
                      subst he4
                      unfold materialize_from_data at hrun2
                      split at hrun2
                      · split at hrun2
                        · cases hrun2
                        · rename_i ds2 db1b jobs1b hds2
                          rw [hds1] at hds2
                          injection hds2 with he5
                          injection he5 with he5a he5b
                          injection he5b with he5c he5d
                          subst he5a
                          subst he5c
                          subst he5d
                          split at hrun2
                          · cases hrun2
                          · rename_i db3b jobs2b hinl2
                            rw [hinl1] at hinl2
                            injection hinl2 with he6
                            injection he6 with he6a he6b
                            subst he6a
                            subst he6b
                            split at hrun2
                            · cases hrun2
                            · rename_i db4b jobs3b hch2
                              simp only [hsg, Bool.false_eq_true, if_false] at hrun2
                              cases hrun2
                              have hasync : db4b = db3 := by
                                split at hch2
                                · exact children_async_noop
                                    (update_or_create_esi w fuel) data1 inc
                                    sch.children db3 (db4b, jobs3b) hch2
                                · injection hch2 with hh
                                  injection hh with hh1 hh2
                                  exact hh1.symm
                              have hsync : ∀ j, db4.entities ck j
                                  = db3.entities ck j := by
                                intro j
                                split at hch1
                                · exact (children_frame w ck
                                    (update_or_create_esi w fuel) data1 inc true hgo
                                    (Or.inr hncf) sch.children
                                    (fun c hc => ncf_child hncf hsch hc) db3
                                    (db4, jobs3) hch1).1 j
                                · injection hch1 with hh
                                  injection hh with hh1 hh2
                                  rw [← hh1]
                              refine ⟨?_, rfl, rfl⟩
                              show db4.entities ck i = db4b.entities ck i
                              rw [hasync, hsync i]
                      · exact absurd (show data1.truthy = true from by assumption)
                          (show ¬data1.truthy = true from by assumption)
        · cases hrun1

/-- Witness for `deferred_child_equivalence`: the category fixture — one
deferred job per id with no writes, the worker task running the same entry
point, and identical child state across the two flag values. -/
theorem deferred_child_equivalence_witness :
    ((DB.empty, [(("EveCategory", 6, false, false) : Job)]).1 = DB.empty ∧
      (DB.empty, [(("EveCategory", 6, false, false) : Job)]).2
        = [EsiValue.num 6].filterMap (fun v =>
            match v with
            | EsiValue.num i => some (("EveCategory", i, false, false) : Job)
            | _ => none)) ∧
    load_eve_entity categoryWorld 0 ("EveCategory", 6, false, true) DB.empty
      = update_or_create_esi categoryWorld 0 "EveCategory" 6 false true DB.empty ∧
    (categoryRes1.db.entities "EveCategory" 6
        = categoryRes1.db.entities "EveCategory" 6 ∧
      categoryRes1.obj = categoryRes1.obj ∧
      categoryRes1.created = categoryRes1.created) := by
  obtain ⟨hA, hB, hC⟩ := deferred_child_equivalence categoryWorld 0 "EveCategory"
    categorySchema false rfl rfl (by decide) (by decide)
  exact ⟨hA (update_or_create_esi categoryWorld 0) [EsiValue.num 6] DB.empty
      (DB.empty, [("EveCategory", 6, false, false)]) rfl,
    hB 6 true DB.empty,
    hC 6 DB.empty categoryRes1 categoryRes1 rfl rfl⟩

theorem pairWorld_symm (a b sa sb : Int) (na nb nsa nsb : String)
    (hab : a ≠ b) (hs : sa ≠ sb) :
    pairWorld a b sa sb na nb nsa nsb = pairWorld b a sb sa nb na nsb nsa := by
  unfold pairWorld
  congr 1
  funext k i
  by_cases hk1 : k = "EveStargate"
  · subst hk1
    by_cases hia : i = some a
    · subst hia
      simp [hab, Ne.symm hab]
    · by_cases hib : i = some b
      · subst hib
        simp [hab, Ne.symm hab]
      · simp [hia, hib]
  · by_cases hk2 : k = "EveSolarSystem"
    · subst hk2
      by_cases hisa : i = some sa
      · subst hisa
        simp [hs, Ne.symm hs]
      · by_cases hisb : i = some sb
        · subst hisb
          simp [hs, Ne.symm hs]
        · simp [hisa, hisb]
    · simp [hk1, hk2]

theorem pair_sys_run (a b sa sb : Int) (na nb nsa nsb : String)
    (s : Int) (ns : String) (db : DB)
    (hs0 : s ≠ 0)
    (hdb : db.entities "EveSolarSystem" s = none)
    (hrem : (pairWorld a b sa sb na nb nsa nsb).remote "EveSolarSystem" (some s)
      = some (.obj [("system_id", .num s), ("name", .str ns),
          ("security_status", .num 1)])) :
    update_or_create_esi (pairWorld a b sa sb na nb nsa nsb) 2 "EveSolarSystem" s
        false true db
      = .ok ⟨db.setEntity "EveSolarSystem" s
          [("id", .num s), ("name", .str ns), ("security_status", .num 1)],
        [("id", .num s), ("name", .str ns), ("security_status", .num 1)],
        true, []⟩ := by
  have hk : (pairWorld a b sa sb na nb nsa nsb).kinds = stargateWorld.kinds := rfl
  show engineStep (pairWorld a b sa sb na nb nsa nsb)
      (update_or_create_esi (pairWorld a b sa sb na nb nsa nsb) 1) "EveSolarSystem" s
      false true db = _
  simp [engineStep, materialize_from_data, handle_list_endpoints,
    defaults_from_esi_obj, storeUpsert, update_or_create_inline_objects,
    update_or_create_children, stargate_fixup, lookupEsi, lookupPath,
    EsiValue.truthy, Except.map, List.lookup, hk, stargateWorld,
    hs0, hdb, hrem]

theorem pair_gateA_run (a b sa sb : Int) (na nb nsa nsb : String)
    (ha0 : a ≠ 0) (hsa0 : sa ≠ 0) :
    update_or_create_esi (pairWorld a b sa sb na nb nsa nsb) 3 "EveStargate" a
        false true DB.empty
      = .ok ⟨(DB.empty.setEntity "EveSolarSystem" sa
            [("id", .num sa), ("name", .str nsa),
             ("security_status", .num 1)]).setEntity "EveStargate" a
          [("id", .num a), ("name", .str na),
           ("destination_eve_stargate", EsiValue.null),
           ("destination_eve_solar_system", EsiValue.null),
           ("eve_solar_system", .num sa)],
        [("id", .num a), ("name", .str na),
         ("destination_eve_stargate", EsiValue.null),
         ("destination_eve_solar_system", EsiValue.null),
         ("eve_solar_system", .num sa)],
        true, []⟩ := by
  have hk : (pairWorld a b sa sb na nb nsa nsb).kinds = stargateWorld.kinds := rfl
  have hremA : (pairWorld a b sa sb na nb nsa nsb).remote "EveStargate" (some a)
      = some (.obj [("stargate_id", .num a), ("name", .str na),
          ("destination", .obj [("stargate_id", .num b), ("system_id", .num sb)]),
          ("system_id", .num sa)]) := by
    simp [pairWorld]
  have hsys := pair_sys_run a b sa sb na nb nsa nsb sa nsa DB.empty hsa0 rfl
    (by simp [pairWorld])
  have hl1 : ∀ r : Record,
      ((DB.empty.setEntity "EveSolarSystem" sa r).entities "EveStargate" a) = none := by
    intro r
    simp [DB.setEntity, DB.empty]
  have he1 : ∀ (kk : String) (i : Int), DB.empty.entities kk i = none :=
    fun _ _ => rfl
  show engineStep (pairWorld a b sa sb na nb nsa nsb)
      (update_or_create_esi (pairWorld a b sa sb na nb nsa nsb) 2) "EveStargate" a
      false true DB.empty = _
  simp [engineStep, materialize_from_data, handle_list_endpoints,
    defaults_from_esi_obj, storeUpsert, update_or_create_inline_objects,
    update_or_create_children, stargate_fixup, setField, lookupEsi, lookupPath,
    EsiValue.truthy, Except.map, List.lookup, hk, stargateWorld, he1,
    ha0, hremA, hsys, hl1]

theorem pair_gateB_run (a b sa sb : Int) (na nb nsa nsb : String)
    (hab : a ≠ b) (hs : sa ≠ sb) (hb0 : b ≠ 0) (hsb0 : sb ≠ 0) :
    update_or_create_esi (pairWorld a b sa sb na nb nsa nsb) 3 "EveStargate" b
        false true
        ((DB.empty.setEntity "EveSolarSystem" sa
            [("id", .num sa), ("name", .str nsa),
             ("security_status", .num 1)]).setEntity "EveStargate" a
          [("id", .num a), ("name", .str na),
           ("destination_eve_stargate", EsiValue.null),
           ("destination_eve_solar_system", EsiValue.null),
           ("eve_solar_system", .num sa)])
      = .ok ⟨((((DB.empty.setEntity "EveSolarSystem" sa
              [("id", .num sa), ("name", .str nsa),
               ("security_status", .num 1)]).setEntity "EveStargate" a
            [("id", .num a), ("name", .str na),
             ("destination_eve_stargate", EsiValue.null),
             ("destination_eve_solar_system", EsiValue.null),
             ("eve_solar_system", .num sa)]).setEntity "EveSolarSystem" sb
          [("id", .num sb), ("name", .str nsb),
           ("security_status", .num 1)]).setEntity "EveStargate" b
          [("id", .num b), ("name", .str nb),
           ("destination_eve_stargate", .num a),
           ("destination_eve_solar_system", .num sa),
           ("eve_solar_system", .num sb)]).setEntity "EveStargate" a
          [("id", .num a), ("name", .str na),
           ("destination_eve_stargate", .num b),
           ("destination_eve_solar_system", .num sb),
           ("eve_solar_system", .num sa)],
        [("id", .num b), ("name", .str nb),
         ("destination_eve_stargate", .num a),
         ("destination_eve_solar_system", .num sa),
         ("eve_solar_system", .num sb)],
        true, []⟩ := by
  have hab2 : b ≠ a := Ne.symm hab
  have hs2 : sb ≠ sa := Ne.symm hs
  have hk : (pairWorld a b sa sb na nb nsa nsb).kinds = stargateWorld.kinds := rfl
  have hremB : (pairWorld a b sa sb na nb nsa nsb).remote "EveStargate" (some b)
      = some (.obj [("stargate_id", .num b), ("name", .str nb),
          ("destination", .obj [("stargate_id", .num a), ("system_id", .num sa)]),
          ("system_id", .num sb)]) := by
    simp [pairWorld, hab2]
  have hl2 : ∀ r1 r2 : Record,
      (((DB.empty.setEntity "EveSolarSystem" sa r1).setEntity "EveStargate" a
          r2).entities "EveSolarSystem" sa) = some r1 := by
    intro r1 r2
    simp [DB.setEntity]
  have hl3 : ∀ r1 r2 : Record,
      (((DB.empty.setEntity "EveSolarSystem" sa r1).setEntity "EveStargate" a
          r2).entities "EveSolarSystem" sb) = none := by
    intro r1 r2
    simp [DB.setEntity, DB.empty, hs2]
  have hsysB := pair_sys_run a b sa sb na nb nsa nsb sb nsb
    ((DB.empty.setEntity "EveSolarSystem" sa
        [("id", .num sa), ("name", .str nsa),
         ("security_status", .num 1)]).setEntity "EveStargate" a
      [("id", .num a), ("name", .str na),
       ("destination_eve_stargate", EsiValue.null),
       ("destination_eve_solar_system", EsiValue.null),
       ("eve_solar_system", .num sa)])
    hsb0 (hl3 _ _) (by simp [pairWorld, hs2])
  have hl4 : ∀ r1 r2 r3 : Record,
      ((((DB.empty.setEntity "EveSolarSystem" sa r1).setEntity "EveStargate" a
          r2).setEntity "EveSolarSystem" sb r3).entities "EveStargate" b) = none := by
    intro r1 r2 r3
    simp [DB.setEntity, DB.empty, hab2]
  have hl5 : ∀ r1 r2 r3 r4 : Record,
      (((((DB.empty.setEntity "EveSolarSystem" sa r1).setEntity "EveStargate" a
          r2).setEntity "EveSolarSystem" sb r3).setEntity "EveStargate" b
          r4).entities "EveStargate" a) = some r2 := by
    intro r1 r2 r3 r4
    simp [DB.setEntity, hab]
  show engineStep (pairWorld a b sa sb na nb nsa nsb)
      (update_or_create_esi (pairWorld a b sa sb na nb nsa nsb) 2) "EveStargate" b
      false true _ = _
  simp [engineStep, materialize_from_data, handle_list_endpoints,
    defaults_from_esi_obj, storeUpsert, update_or_create_inline_objects,
    update_or_create_children, stargate_fixup, setField, lookupEsi, lookupPath, EsiValue.truthy, Except.map, List.lookup, hk,
    stargateWorld, setEntity_self, hb0, hremB, hsysB, hl2, hl3, hl4, hl5]

theorem pairWorld_run (a b sa sb : Int) (na nb nsa nsb : String)
    (hab : a ≠ b) (hs : sa ≠ sb) (ha0 : a ≠ 0) (hb0 : b ≠ 0)
    (hsa0 : sa ≠ 0) (hsb0 : sb ≠ 0) :
    ((pairDBAfter a b sa sb na nb nsa nsb a b).bind
        (fun db => gateField db a "destination_eve_stargate")
      = some (some (.num b))) ∧
    ((pairDBAfter a b sa sb na nb nsa nsb a b).bind
        (fun db => gateField db a "destination_eve_solar_system")
      = some (some (.num sb))) ∧
    ((pairDBAfter a b sa sb na nb nsa nsb a b).bind
        (fun db => gateField db b "destination_eve_stargate")
      = some (some (.num a))) ∧
    ((pairDBAfter a b sa sb na nb nsa nsb a b).bind
        (fun db => gateField db b "destination_eve_solar_system")
      = some (some (.num sa))) := by
  have hab2 : b ≠ a := Ne.symm hab
  have hA := pair_gateA_run a b sa sb na nb nsa nsb ha0 hsa0
  have hB := pair_gateB_run a b sa sb na nb nsa nsb hab hs hb0 hsb0
  have hfa : ∀ r1 r2 r3 r4 r5 : Record,
      (((((((DB.empty.setEntity "EveSolarSystem" sa r1).setEntity "EveStargate" a
        r2).setEntity "EveSolarSystem" sb r3).setEntity "EveStargate" b
        r4).setEntity "EveStargate" a r5).entities "EveStargate" a)) = some r5 := by
    intro r1 r2 r3 r4 r5
    exact setEntity_self _ _ _ _
  have hfb : ∀ r1 r2 r3 r4 r5 : Record,
      (((((((DB.empty.setEntity "EveSolarSystem" sa r1).setEntity "EveStargate" a
        r2).setEntity "EveSolarSystem" sb r3).setEntity "EveStargate" b
        r4).setEntity "EveStargate" a r5).entities "EveStargate" b)) = some r4 := by
    intro r1 r2 r3 r4 r5
    simp [DB.setEntity, hab2]
  refine ⟨?_, ?_, ?_, ?_⟩ <;>
    simp [pairDBAfter, hA, hB, gateField, List.lookup, hfa, hfb]

/-- C6: for any two stargates (arbitrary ids, systems and names, the ids
nonzero and pairwise distinct) whose remote records name each other as
destination, upserting one and then the other leaves both local records
mutually consistent in either insertion order: each gate's
destination-gate field points at the other gate and each gate's
destination-solar-system field points at the other gate's solar system
(the second upsert resolves its destination fields against the
now-present first gate, and the stargate manager's fixup writes the first
gate's reciprocal fields back). -/
theorem stargate_reciprocal_pairing (a b sa sb : Int) (na nb nsa nsb : String)
    (hab : a ≠ b) (hs : sa ≠ sb) (ha0 : a ≠ 0) (hb0 : b ≠ 0)
    (hsa0 : sa ≠ 0) (hsb0 : sb ≠ 0) :
    (((pairDBAfter a b sa sb na nb nsa nsb a b).bind
        (fun db => gateField db a "destination_eve_stargate")
        = some (some (.num b))) ∧
      ((pairDBAfter a b sa sb na nb nsa nsb a b).bind
        (fun db => gateField db a "destination_eve_solar_system")
        = some (some (.num sb))) ∧
      ((pairDBAfter a b sa sb na nb nsa nsb a b).bind
        (fun db => gateField db b "destination_eve_stargate")
        = some (some (.num a))) ∧
      ((pairDBAfter a b sa sb na nb nsa nsb a b).bind
        (fun db => gateField db b "destination_eve_solar_system")
        = some (some (.num sa)))) ∧
    (((pairDBAfter a b sa sb na nb nsa nsb b a).bind
        (fun db => gateField db a "destination_eve_stargate")
        = some (some (.num b))) ∧
      ((pairDBAfter a b sa sb na nb nsa nsb b a).bind
        (fun db => gateField db a "destination_eve_solar_system")
        = some (some (.num sb))) ∧
      ((pairDBAfter a b sa sb na nb nsa nsb b a).bind
        (fun db => gateField db b "destination_eve_stargate")
        = some (some (.num a))) ∧
      ((pairDBAfter a b sa sb na nb nsa nsb b a).bind
        (fun db => gateField db b "destination_eve_solar_system")
        = some (some (.num sa)))) := by
  have h1 := pairWorld_run a b sa sb na nb nsa nsb hab hs ha0 hb0 hsa0 hsb0
  have h2 := pairWorld_run b a sb sa nb na nsb nsa (Ne.symm hab) (Ne.symm hs)
    hb0 ha0 hsb0 hsa0
  have hsymm : ∀ first second,
      pairDBAfter a b sa sb na nb nsa nsb first second
        = pairDBAfter b a sb sa nb na nsb nsa first second := by
    intro first second
    unfold pairDBAfter
    rw [pairWorld_symm a b sa sb na nb nsa nsb hab hs]
  refine ⟨⟨h1.1, h1.2.1, h1.2.2.1, h1.2.2.2⟩, ?_, ?_, ?_, ?_⟩
  · rw [hsymm]
    exact h2.2.2.1
  · rw [hsymm]
    exact h2.2.2.2
  · rw [hsymm]
    exact h2.1
  · rw [hsymm]
    exact h2.2.1

/-- Witness for `stargate_reciprocal_pairing`: a concrete reciprocal pair
(gates 50 and 60 in systems 30001 and 30002), both insertion orders. -/
theorem stargate_reciprocal_pairing_witness :
    (((pairDBAfter 50 60 30001 30002 "Gate A" "Gate B" "Sys A" "Sys B" 50 60).bind
        (fun db => gateField db 50 "destination_eve_stargate")
        = some (some (.num 60))) ∧
      ((pairDBAfter 50 60 30001 30002 "Gate A" "Gate B" "Sys A" "Sys B" 50 60).bind
        (fun db => gateField db 50 "destination_eve_solar_system")
        = some (some (.num 30002))) ∧
      ((pairDBAfter 50 60 30001 30002 "Gate A" "Gate B" "Sys A" "Sys B" 50 60).bind
        (fun db => gateField db 60 "destination_eve_stargate")
        = some (some (.num 50))) ∧
      ((pairDBAfter 50 60 30001 30002 "Gate A" "Gate B" "Sys A" "Sys B" 50 60).bind
        (fun db => gateField db 60 "destination_eve_solar_system")
        = some (some (.num 30001)))) ∧
    (((pairDBAfter 50 60 30001 30002 "Gate A" "Gate B" "Sys A" "Sys B" 60 50).bind
        (fun db => gateField db 50 "destination_eve_stargate")
        = some (some (.num 60))) ∧
      ((pairDBAfter 50 60 30001 30002 "Gate A" "Gate B" "Sys A" "Sys B" 60 50).bind
        (fun db => gateField db 50 "destination_eve_solar_system")
        = some (some (.num 30002))) ∧
      ((pairDBAfter 50 60 30001 30002 "Gate A" "Gate B" "Sys A" "Sys B" 60 50).bind
        (fun db => gateField db 60 "destination_eve_stargate")
        = some (some (.num 50))) ∧
      ((pairDBAfter 50 60 30001 30002 "Gate A" "Gate B" "Sys A" "Sys B" 60 50).bind
        (fun db => gateField db 60 "destination_eve_solar_system")
        = some (some (.num 30001)))) :=
  stargate_reciprocal_pairing 50 60 30001 30002 "Gate A" "Gate B" "Sys A" "Sys B"
    (by decide) (by decide) (by decide) (by decide) (by decide) (by decide)

end EveUniverse


